import Mathlib

/-!
Mars rover kata (`tdd-katas/catch2/mars-rover-catch/src/rover.hpp`).

A shallow embedding of the `TDD` namespace of `rover.hpp`.

Machine integers:
* `int` is a 32-bit two's-complement integer, embedded as an `Int` in
  `[INT_MIN, INT_MAX]`;
* `size_t` is a 64-bit unsigned integer, embedded as a `Nat` below `2 ^ 64`,
  with the reduction modulo `2 ^ 64` written out at each operation;
* the conversions `int → size_t` and `size_t → int` are the modular ones of
  the language standard (`toSizeT`, `toInt`).

Operations whose behaviour the language leaves undefined (signed overflow of
`position.x += 1`, a zero divisor in `%`) produce `none` / `Outcome.undefined`.
-/

namespace TDD

/-! ## Machine integers -/

/-- Smallest value of `int`. -/
def INT_MIN : Int := -(2 ^ 31)

/-- Largest value of `int`. -/
def INT_MAX : Int := 2 ^ 31 - 1

/-- Number of values of `size_t`. -/
def SIZE_MOD : Nat := 2 ^ 64

/-- The values an `int` can hold. -/
def isInt (v : Int) : Prop := INT_MIN ≤ v ∧ v ≤ INT_MAX

instance (v : Int) : Decidable (isInt v) := by
  unfold isInt; infer_instance

/-- Conversion `int → size_t` (the value modulo `2 ^ 64`), as applied to `x` in
`x + max_width_` and to the arguments of `is_obstacle_for`. -/
def toSizeT (v : Int) : Nat := (v % (SIZE_MOD : Int)).toNat

/-- Conversion `size_t → int` (the value modulo `2 ^ 32`, read as two's
complement), as applied in `position.x = wrapped_x`. -/
def toInt (n : Nat) : Int :=
  if n % 2 ^ 32 < 2 ^ 31 then ((n % 2 ^ 32 : Nat) : Int)
  else ((n % 2 ^ 32 : Nat) : Int) - 2 ^ 32

/-- Signed `int` addition `a + b`; `none` when the sum is not an `int`
(signed overflow). -/
def addInt (a b : Int) : Option Int :=
  if isInt (a + b) then some (a + b) else none

/-! ## Data model -/

/-- The enum `Direction`; the underlying values are 0, 1, 2, 3. -/
inductive Direction where
  | North
  | East
  | South
  | West
  deriving DecidableEq, Repr

/-- The struct `Position`, compared field by field. -/
structure Position where
  x : Int
  y : Int
  direction : Direction
  deriving DecidableEq, Repr

/-- The class `Map`: two `size_t` fields. -/
structure Map where
  max_width_ : Nat
  max_height_ : Nat
  width_lt : max_width_ < SIZE_MOD
  height_lt : max_height_ < SIZE_MOD
  deriving DecidableEq

/-- `Map::wrap(int x, int y)`.

`(x + max_width_) % max_width_` is evaluated in `size_t`: `x` is converted to
`size_t`, the sum is reduced modulo `2 ^ 64`, and the remainder is taken.
A zero divisor is undefined behaviour: `none`. -/
def Map.wrap (m : Map) (x y : Int) : Option (Nat × Nat) :=
  if m.max_width_ = 0 ∨ m.max_height_ = 0 then none
  else
    let wrapped_x := ((toSizeT x + m.max_width_) % SIZE_MOD) % m.max_width_
    let wrapped_y := ((toSizeT y + m.max_height_) % SIZE_MOD) % m.max_height_
    some (wrapped_x, wrapped_y)

/-- The mathematical (non-negative) modulo `(v mod n + n) mod n`. -/
def mathMod (v : Int) (n : Nat) : Int := (v % (n : Int) + n) % (n : Int)

/-- The abstract class `ObstacleDetector`. The virtual method
`bool is_obstacle_for(size_t x, size_t y)` is not `const`: it returns its
answer together with the detector as the call leaves it. -/
class ObstacleDetector (D : Type) where
  is_obstacle_for : D → Nat → Nat → Bool × D

/-- How a call on a rover ends: it returns, it throws one of the two exception
classes (with the `what()` message), or its behaviour is undefined. -/
inductive Outcome where
  | ok
  | UnknownCommandException (message : String)
  | ObstacleDetectedException (message : String)
  | undefined
  deriving DecidableEq, Repr

/-- The call returned normally. -/
def Outcome.isOk : Outcome → Bool
  | .ok => true
  | _ => false

/-- The call threw `UnknownCommandException` or `ObstacleDetectedException`. -/
def Outcome.isException : Outcome → Bool
  | .UnknownCommandException _ => true
  | .ObstacleDetectedException _ => true
  | _ => false

/-- The class `Rover`: `position_`, `std::optional<Map> map_` and
`std::unique_ptr<ObstacleDetector> obstacle_detector_` (`none` for `nullptr`). -/
structure Rover (D : Type) where
  position_ : Position
  map_ : Option Map
  obstacle_detector_ : Option D
  deriving DecidableEq

/-- What a call of a `Rover` method leaves behind: how it ended, the rover
object after the call, and the calls it made on the detector
(`is_obstacle_for (x, y)`), in order. -/
structure Result (D : Type) where
  outcome : Outcome
  rover : Rover D
  queries : List (Nat × Nat)
  deriving DecidableEq

/-- Sequencing of two calls on the same object: the second runs on the rover
the first left, unless the first did not return normally. -/
def Result.andThen {D : Type} (first : Result D) (next : Rover D → Result D) : Result D :=
  match first.outcome with
  | .ok =>
    let second := next first.rover
    { outcome := second.outcome, rover := second.rover,
      queries := first.queries ++ second.queries }
  | _ => first

namespace Rover

variable {D : Type}

/-- `Rover::Rover(x, y, direction, map, detector)`. -/
def new (x y : Int) (direction : Direction) (map : Option Map) (detector : Option D) :
    Rover D :=
  { position_ := { x := x, y := y, direction := direction },
    map_ := map, obstacle_detector_ := detector }

/-- `Rover::get_position`. -/
def get_position (r : Rover D) : Position := r.position_

/-- `Rover::wrap_coordinates`: with a map, both coordinates are replaced by
the wrapped ones, converted from `size_t` to `int`. -/
def wrap_coordinates (r : Rover D) (position : Position) : Option Position :=
  match r.map_ with
  | some m =>
    match m.wrap position.x position.y with
    | some (wrapped_x, wrapped_y) =>
      some { position with x := toInt wrapped_x, y := toInt wrapped_y }
    | none => none
  | none => some position

/-- `Rover::next_forward_position`. -/
def next_forward_position (r : Rover D) (position : Position) : Option Position :=
  let moved : Option Position :=
    match position.direction with
    | .North => (addInt position.y 1).map fun v => { position with y := v }
    | .South => (addInt position.y (-1)).map fun v => { position with y := v }
    | .East => (addInt position.x 1).map fun v => { position with x := v }
    | .West => (addInt position.x (-1)).map fun v => { position with x := v }
  moved.bind r.wrap_coordinates

/-- `Rover::next_backward_position`. -/
def next_backward_position (r : Rover D) (position : Position) : Option Position :=
  let moved : Option Position :=
    match position.direction with
    | .North => (addInt position.y (-1)).map fun v => { position with y := v }
    | .South => (addInt position.y 1).map fun v => { position with y := v }
    | .East => (addInt position.x (-1)).map fun v => { position with x := v }
    | .West => (addInt position.x 1).map fun v => { position with x := v }
  moved.bind r.wrap_coordinates

/-- `Rover::move_forward`. The detector, when there is one, is asked about
`(next_pos.x, next_pos.y)`, converted to `size_t`; on `true` the call throws
before `position_` is assigned. -/
def move_forward [ObstacleDetector D] (r : Rover D) : Result D :=
  match r.next_forward_position r.position_ with
  | none => { outcome := .undefined, rover := r, queries := [] }
  | some next_pos =>
    match r.obstacle_detector_ with
    | some d =>
      let answer := ObstacleDetector.is_obstacle_for d (toSizeT next_pos.x) (toSizeT next_pos.y)
      if answer.1 then
        { outcome := .ObstacleDetectedException "Obstacle detected!!!",
          rover := { r with obstacle_detector_ := some answer.2 },
          queries := [(toSizeT next_pos.x, toSizeT next_pos.y)] }
      else
        { outcome := .ok,
          rover := { r with position_ := next_pos, obstacle_detector_ := some answer.2 },
          queries := [(toSizeT next_pos.x, toSizeT next_pos.y)] }
    | none =>
      { outcome := .ok, rover := { r with position_ := next_pos }, queries := [] }

/-- `Rover::move_backward`. -/
def move_backward [ObstacleDetector D] (r : Rover D) : Result D :=
  match r.next_backward_position r.position_ with
  | none => { outcome := .undefined, rover := r, queries := [] }
  | some next_pos =>
    match r.obstacle_detector_ with
    | some d =>
      let answer := ObstacleDetector.is_obstacle_for d (toSizeT next_pos.x) (toSizeT next_pos.y)
      if answer.1 then
        { outcome := .ObstacleDetectedException "Obstacle detected!!!",
          rover := { r with obstacle_detector_ := some answer.2 },
          queries := [(toSizeT next_pos.x, toSizeT next_pos.y)] }
      else
        { outcome := .ok,
          rover := { r with position_ := next_pos, obstacle_detector_ := some answer.2 },
          queries := [(toSizeT next_pos.x, toSizeT next_pos.y)] }
    | none =>
      { outcome := .ok, rover := { r with position_ := next_pos }, queries := [] }

/-- `Rover::directions_`. -/
def directions_ : Array Direction :=
  #[Direction.North, Direction.East, Direction.South, Direction.West]

/-- `Rover::TurnDirection`, an `int8_t` enum: `Left = -1`, `Right = 1`. -/
inductive TurnDirection where
  | Left
  | Right
  deriving DecidableEq, Repr

/-- `std::to_underlying` on `TurnDirection`. -/
def TurnDirection.to_underlying : TurnDirection → Int
  | .Left => -1
  | .Right => 1

end Rover

/-- `std::to_underlying` on `Direction`. -/
def Direction.to_underlying : Direction → Int
  | .North => 0
  | .East => 1
  | .South => 2
  | .West => 3

namespace Rover

variable {D : Type}

/-- `Rover::turn`. The sum `index` is an `int`; in `index % std::size(directions_)`
it is converted to `size_t`, so the subscript is below 4. -/
def turn (current_direction : Direction) (turn_direction : TurnDirection) : Direction :=
  let index : Int := current_direction.to_underlying + turn_direction.to_underlying
  directions_.get ⟨toSizeT index % directions_.size, Nat.mod_lt _ (by decide)⟩

/-- `Rover::turn_left`. -/
def turn_left (r : Rover D) : Rover D :=
  { r with position_ :=
      { r.position_ with direction := turn r.position_.direction TurnDirection.Left } }

/-- `Rover::turn_right`. -/
def turn_right (r : Rover D) : Rover D :=
  { r with position_ :=
      { r.position_ with direction := turn r.position_.direction TurnDirection.Right } }

/-- A call that returns normally without asking the detector. -/
def returned (r : Rover D) : Result D :=
  { outcome := .ok, rover := r, queries := [] }

/-- `std::toupper` in the "C" locale. -/
def toupper (cmd : Char) : Char := cmd.toUpper

/-- `std::runtime_error::what()` on an exception built from `message`: a C
string, which ends before the first NUL character of `message`. -/
def what (message : String) : String :=
  String.mk (message.data.takeWhile fun ch => ch != Char.ofNat 0)

/-- The body of the `for` loop of `Rover::execute` for one character. The
exception is built from `std::string("Unknown command: ") + cmd`; its message
is what `what()` returns. -/
def dispatch [ObstacleDetector D] (r : Rover D) (cmd : Char) : Result D :=
  if toupper cmd = 'L' then returned r.turn_left
  else if toupper cmd = 'R' then returned r.turn_right
  else if toupper cmd = 'F' then r.move_forward
  else if toupper cmd = 'B' then r.move_backward
  else
    { outcome := .UnknownCommandException (what ("Unknown command: ".push cmd)),
      rover := r, queries := [] }

/-- The `for` loop of `Rover::execute` over the characters still to run; an
exception (or undefined behaviour) leaves the loop. -/
def execute_loop [ObstacleDetector D] (r : Rover D) : List Char → Result D
  | [] => returned r
  | cmd :: rest => (r.dispatch cmd).andThen fun r1 => execute_loop r1 rest

/-- `Rover::execute`. -/
def execute [ObstacleDetector D] (r : Rover D) (commands : String) : Result D :=
  r.execute_loop commands.data

end Rover

/-! ## Test doubles of `tests_mars_rover.cpp` -/

/-- `ObstacleDetectorStub`: an object without fields. -/
structure ObstacleDetectorStub where
  deriving DecidableEq, Repr

/-- `ObstacleDetectorStub::is_obstacle_for`: `true` exactly at `(5, 8)`. -/
instance : ObstacleDetector ObstacleDetectorStub where
  is_obstacle_for d x y := (if x = 5 ∧ y = 8 then true else false, d)

/-! ## Concrete objects of the tests -/

/-- `Map map{10, 20}` of the test "Map - wraps coordinates". -/
def map_10_20 : Map :=
  { max_width_ := 10, max_height_ := 20, width_lt := by decide, height_lt := by decide }

/-- `Map mars_map{10, 10}` of the rover tests. -/
def mars_map : Map :=
  { max_width_ := 10, max_height_ := 10, width_lt := by decide, height_lt := by decide }

/-- The rover of the test "Rover - obstacle detection": `(5, 5, North)` on
`mars_map` with an `ObstacleDetectorStub`. -/
def rover_with_stub : Rover ObstacleDetectorStub :=
  Rover.new 5 5 Direction.North (some mars_map) (some ObstacleDetectorStub.mk)

/-- The rover of the test "Rover - executes list of commands": `(5, 5, East)`,
no map, no detector. -/
def rover_plain : Rover ObstacleDetectorStub :=
  Rover.new 5 5 Direction.East none none

/-- The candidate position of a move: `next_forward_position(position_)` for
`move_forward`, `next_backward_position(position_)` for `move_backward`. -/
def Rover.candidate {D : Type} (r : Rover D) (forward : Bool) : Option Position :=
  if forward then r.next_forward_position r.position_
  else r.next_backward_position r.position_

/-- A move attempt: `move_forward()` or `move_backward()`. -/
def Rover.move {D : Type} [ObstacleDetector D] (r : Rover D) (forward : Bool) : Result D :=
  if forward then r.move_forward else r.move_backward

/-- The vector a forward move adds to `(x, y)`: North `(0, +1)`, South
`(0, -1)`, East `(+1, 0)`, West `(-1, 0)`. -/
def forwardVector : Direction → Int × Int
  | .North => (0, 1)
  | .South => (0, -1)
  | .East => (1, 0)
  | .West => (-1, 0)

/-- The position `sign` steps along the facing vector, before wrapping
(`sign = 1` forward, `sign = -1` backward). -/
def Position.shifted (position : Position) (sign : Int) : Position :=
  { x := position.x + sign * (forwardVector position.direction).1,
    y := position.y + sign * (forwardVector position.direction).2,
    direction := position.direction }

/-- The number of move commands (F or B, either case) in a command list. -/
def moveCount (commands : List Char) : Nat :=
  (commands.filter fun c => decide (c ∈ ['F', 'f', 'B', 'b'])).length

/-- A rover on the unbounded plane at `(0, 0, South)` with an
`ObstacleDetectorStub`. -/
def rover_origin_south : Rover ObstacleDetectorStub :=
  Rover.new 0 0 Direction.South none (some ObstacleDetectorStub.mk)

/-- A map `2 ^ 32` cells wide and 10 high. -/
def map_wide : Map :=
  { max_width_ := 4294967296, max_height_ := 10, width_lt := by decide, height_lt := by decide }

/-- A rover at `(0, 5, West)` on `map_wide`, without detector. -/
def rover_wide : Rover ObstacleDetectorStub :=
  Rover.new 0 5 Direction.West (some map_wide) none

/-- Rovers without detector on `mars_map`, one step from an edge, as in the
test "Rover - wrapping coordinates". -/
def rover_north_edge : Rover ObstacleDetectorStub :=
  Rover.new 5 9 Direction.North (some mars_map) none

/-- See `rover_north_edge`. -/
def rover_south_edge : Rover ObstacleDetectorStub :=
  Rover.new 5 0 Direction.South (some mars_map) none

/-- See `rover_north_edge`. -/
def rover_east_edge : Rover ObstacleDetectorStub :=
  Rover.new 9 5 Direction.East (some mars_map) none

/-- The characters `execute` accepts as commands. -/
def commandLetters : List Char := ['F', 'f', 'B', 'b', 'L', 'l', 'R', 'r']

/-- The method a command letter stands for: F `move_forward`, B
`move_backward`, L `turn_left`, R `turn_right`, in either case; `none` for any
other character. -/
def Rover.methodFor {D : Type} [ObstacleDetector D] (c : Char) :
    Option (Rover D → Result D) :=
  if c = 'F' ∨ c = 'f' then some Rover.move_forward
  else if c = 'B' ∨ c = 'b' then some Rover.move_backward
  else if c = 'L' ∨ c = 'l' then some fun r => Rover.returned r.turn_left
  else if c = 'R' ∨ c = 'r' then some fun r => Rover.returned r.turn_right
  else none

/-- Calling methods on a rover one at a time, from left to right; a call that
throws ends the sequence. -/
def Rover.callInOrder {D : Type} (r : Rover D) : List (Rover D → Result D) → Result D
  | [] => Rover.returned r
  | method :: rest => (method r).andThen fun r1 => r1.callInOrder rest

/-- The rover of the tests "Rover - move forward" and "Rover - move backward":
`(5, 5, direction)`, no map, no detector. -/
def rover_facing (direction : Direction) : Rover ObstacleDetectorStub :=
  Rover.new 5 5 direction none none

/-- A rover at `(5, 7, North)` on `mars_map` with the stub: its forward
candidate `(5, 8)` is the flagged cell. -/
def rover_before_obstacle : Rover ObstacleDetectorStub :=
  Rover.new 5 7 Direction.North (some mars_map) (some ObstacleDetectorStub.mk)

/-! ## Notions used to state case-insensitivity, turning and the builder -/

/-- A letter with its case changed: an upper-case ASCII letter becomes the
lower-case one and conversely; any other character is left alone. -/
def swapCase (c : Char) : Char :=
  if 65 ≤ c.toNat ∧ c.toNat ≤ 90 then Char.ofNat (c.toNat + 32)
  else if 97 ≤ c.toNat ∧ c.toNat ≤ 122 then Char.ofNat (c.toNat - 32)
  else c

/-- The character `c2` is `c1`, possibly with its case changed. -/
def sameLetter (c1 c2 : Char) : Prop := c2 = c1 ∨ c2 = swapCase c1

instance (c1 c2 : Char) : Decidable (sameLetter c1 c2) := by
  unfold sameLetter; infer_instance

/-- The kind of an outcome: the outcome without the `what()` message. -/
inductive OutcomeKind where
  | ok
  | UnknownCommand
  | ObstacleDetected
  | undefined
  deriving DecidableEq, Repr

/-- The kind of an outcome. -/
def Outcome.kind : Outcome → OutcomeKind
  | .ok => .ok
  | .UnknownCommandException _ => .UnknownCommand
  | .ObstacleDetectedException _ => .ObstacleDetected
  | .undefined => .undefined

/-- The successor in the cycle North, East, South, West, North. -/
def Direction.next : Direction → Direction
  | .North => .East
  | .East => .South
  | .South => .West
  | .West => .North

/-- The predecessor in the cycle North, East, South, West, North. -/
def Direction.prev : Direction → Direction
  | .North => .West
  | .East => .North
  | .South => .East
  | .West => .South

/-- The class `RoverBuilder`; `detector_` is `none` for `nullptr`. -/
structure RoverBuilder (D : Type) where
  position_ : Position
  map_ : Option Map
  detector_ : Option D
  deriving DecidableEq

namespace RoverBuilder

variable {D : Type}

/-- `RoverBuilder{}`: the default member initialisers. -/
def new : RoverBuilder D :=
  { position_ := { x := 5, y := 5, direction := Direction.North },
    map_ := none, detector_ := none }

/-- `RoverBuilder::with_position`. -/
def with_position (b : RoverBuilder D) (x y : Int) (direction : Direction) : RoverBuilder D :=
  { b with position_ := { x := x, y := y, direction := direction } }

/-- `RoverBuilder::with_map`. -/
def with_map (b : RoverBuilder D) (map : Map) : RoverBuilder D :=
  { b with map_ := some map }

/-- `RoverBuilder::with_obstacle_detector`. -/
def with_obstacle_detector (b : RoverBuilder D) (detector : Option D) : RoverBuilder D :=
  { b with detector_ := detector }

/-- `RoverBuilder::build`: the rover, and the builder as the call leaves it
(`std::move(detector_)` leaves `detector_` null). -/
def build (b : RoverBuilder D) : Rover D × RoverBuilder D :=
  (Rover.new b.position_.x b.position_.y b.position_.direction b.map_ b.detector_,
    { b with detector_ := none })

end RoverBuilder

/-- A call of `with_map` or of `with_obstacle_detector` on a builder. -/
inductive BuilderExtra (D : Type) where
  | with_map (map : Map)
  | with_obstacle_detector (detector : Option D)

/-- The builder after a sequence of `with_map` / `with_obstacle_detector`
calls. -/
def RoverBuilder.withExtras {D : Type} (b : RoverBuilder D) :
    List (BuilderExtra D) → RoverBuilder D
  | [] => b
  | .with_map map :: rest => (b.with_map map).withExtras rest
  | .with_obstacle_detector detector :: rest =>
    (b.with_obstacle_detector detector).withExtras rest

end TDD

/-!
Statistics exercise (`legacy-to-testable-catch/src/data_analyzer.hpp`).

`double` is a type parameter `R` with the operations the code uses on it
(`0.0`, `+`, `/`, the conversion from `size_t`, `<`): nothing about rounding is
assumed. Console and file output are not part of the embedding.
-/

namespace DataAnalyzerHpp

/-- The operations of `double` that `calculate` uses. -/
class DoubleOps (R : Type) extends Zero R, Add R, Div R, NatCast R, LT R where
  decLt : ∀ a b : R, Decidable (a < b)

instance (R : Type) [DoubleOps R] (a b : R) : Decidable (a < b) := DoubleOps.decLt a b

/-- The rationals as a stand-in for `double` on inputs where every operation
is exact. -/
instance : DoubleOps Rat where
  decLt := fun _ _ => inferInstance

/-- The struct `StatResult`, compared by `description` and `value`. -/
structure StatResult (R : Type) where
  description : String
  value : R
  deriving DecidableEq, Repr

/-- `std::accumulate(begin, end, 0.0)`: a left fold of `+` from `0.0`. -/
def accumulate {R : Type} [DoubleOps R] (data : List R) : R :=
  data.foldl (fun acc v => acc + v) 0

/-- `*std::min_element(begin, end)`: the first smallest element; dereferencing
`end()` on an empty range is undefined (`none`). -/
def min_element {R : Type} [DoubleOps R] : List R → Option R
  | [] => none
  | first :: rest => some (rest.foldl (fun smallest v => if v < smallest then v else smallest) first)

/-- `*std::max_element(begin, end)`: the first largest element; `none` on an
empty range. -/
def max_element {R : Type} [DoubleOps R] : List R → Option R
  | [] => none
  | first :: rest => some (rest.foldl (fun largest v => if largest < v then v else largest) first)

namespace Ver_1

/-- `Ver_1::Statistics`. -/
inductive Statistics where
  | avg
  | min_max
  | sum
  deriving DecidableEq, Repr

/-- `Ver_1::DataAnalyzer`. `reader_` returns the data or throws
(`Except.error` with the message); `writer_` is kept as an argument of the
constructor only. -/
structure DataAnalyzer (R : Type) where
  stat_type_ : Statistics
  data_ : List R
  results_ : List (StatResult R)
  reader_ : String → Except String (List R)
  writer_ : String → List (StatResult R) → Except String Unit

namespace DataAnalyzer

variable {R : Type}

/-- The constructor `DataAnalyzer(stat_type, reader, writer)`: `data_` and
`results_` start empty. -/
def new (stat_type : Statistics) (reader : String → Except String (List R))
    (writer : String → List (StatResult R) → Except String Unit) : DataAnalyzer R :=
  { stat_type_ := stat_type, data_ := [], results_ := [], reader_ := reader, writer_ := writer }

/-- `DataAnalyzer::load_data`: both vectors are cleared, then `data_` is
assigned what the reader returns; the second component is the message of the
exception when the reader throws. -/
def load_data (a : DataAnalyzer R) (file_name : String) : DataAnalyzer R × Option String :=
  match a.reader_ file_name with
  | .ok data => ({ a with data_ := data, results_ := [] }, none)
  | .error message => ({ a with data_ := [], results_ := [] }, some message)

/-- `DataAnalyzer::set_statistics`. -/
def set_statistics (a : DataAnalyzer R) (stat_type : Statistics) : DataAnalyzer R :=
  { a with stat_type_ := stat_type }

/-- `DataAnalyzer::calculate`; `none` when `min_max` dereferences `end()`. -/
def calculate [DoubleOps R] (a : DataAnalyzer R) : Option (DataAnalyzer R) :=
  match a.stat_type_ with
  | .avg =>
    let sum := accumulate a.data_
    let avg := sum / (a.data_.length : R)
    some { a with results_ := a.results_ ++ [{ description := "Avg", value := avg }] }
  | .min_max =>
    match min_element a.data_, max_element a.data_ with
    | some min, some max =>
      some { a with
        results_ := a.results_ ++
          [{ description := "Min", value := min }, { description := "Max", value := max }] }
    | _, _ => none
  | .sum =>
    let sum := accumulate a.data_
    some { a with results_ := a.results_ ++ [{ description := "Sum", value := sum }] }

/-- `DataAnalyzer::results`. -/
def results (a : DataAnalyzer R) : List (StatResult R) := a.results_

end DataAnalyzer

/-- The reader of the test "DataAnalyzer - test reading", returning
`Data{1, 2, 3, 4, 5}` for every file name. -/
def testable_reader : String → Except String (List Rat) :=
  fun _ => .ok [1, 2, 3, 4, 5]

/-- A writer that writes nothing. -/
def null_writer : String → List (StatResult Rat) → Except String Unit :=
  fun _ _ => .ok ()

end Ver_1

namespace LegacyCode

/-- `LegacyCode::Statistics`. -/
inductive Statistics where
  | avg
  | min_max
  | sum
  deriving DecidableEq, Repr

/-- `LegacyCode::DataAnalyzer`. Its `load_data` reads the file itself and is
not part of the embedding: `data_` is whatever was loaded. -/
structure DataAnalyzer (R : Type) where
  stat_type_ : Statistics
  data_ : List R
  results_ : List (StatResult R)

namespace DataAnalyzer

variable {R : Type}

/-- The constructor `DataAnalyzer(stat_type)`. -/
def new (stat_type : Statistics) : DataAnalyzer R :=
  { stat_type_ := stat_type, data_ := [], results_ := [] }

/-- `DataAnalyzer::set_statistics`. -/
def set_statistics (a : DataAnalyzer R) (stat_type : Statistics) : DataAnalyzer R :=
  { a with stat_type_ := stat_type }

/-- `DataAnalyzer::calculate`; `none` when `min_max` dereferences `end()`. -/
def calculate [DoubleOps R] (a : DataAnalyzer R) : Option (DataAnalyzer R) :=
  match a.stat_type_ with
  | .avg =>
    let sum := accumulate a.data_
    let avg := sum / (a.data_.length : R)
    some { a with results_ := a.results_ ++ [{ description := "Avg", value := avg }] }
  | .min_max =>
    match min_element a.data_, max_element a.data_ with
    | some min, some max =>
      some { a with
        results_ := a.results_ ++
          [{ description := "Min", value := min }, { description := "Max", value := max }] }
    | _, _ => none
  | .sum =>
    let sum := accumulate a.data_
    some { a with results_ := a.results_ ++ [{ description := "Sum", value := sum }] }

/-- `DataAnalyzer::results`. -/
def results (a : DataAnalyzer R) : List (StatResult R) := a.results_

end DataAnalyzer

end LegacyCode

namespace Ver_2

/-- The interface `Ver_2::IStatistics`: one virtual method
`Results calculate(const Data&)`; `none` for undefined behaviour. -/
structure IStatistics (R : Type) where
  calculate : List R → Option (List (StatResult R))

/-- `Ver_2::Avg`. -/
def Avg {R : Type} [DoubleOps R] : IStatistics R where
  calculate := fun data =>
    let sum := accumulate data
    let avg := sum / (data.length : R)
    some ([] ++ [{ description := "Avg", value := avg }])

/-- `Ver_2::MinMax`; `none` when `end()` is dereferenced. -/
def MinMax {R : Type} [DoubleOps R] : IStatistics R where
  calculate := fun data =>
    match min_element data, max_element data with
    | some min, some max =>
      some (([] ++ [{ description := "Min", value := min }])
        ++ [{ description := "Max", value := max }])
    | _, _ => none

/-- `Ver_2::Sum`. -/
def Sum {R : Type} [DoubleOps R] : IStatistics R where
  calculate := fun data =>
    let sum := accumulate data
    some ([] ++ [{ description := "Sum", value := sum }])

/-- `Ver_2::DataAnalyzer`; `writer_` is kept as an argument of the constructor
only. -/
structure DataAnalyzer (R : Type) where
  stat_type_ : IStatistics R
  data_ : List R
  results_ : List (StatResult R)
  reader_ : String → Except String (List R)
  writer_ : String → List (StatResult R) → Except String Unit

namespace DataAnalyzer

variable {R : Type}

/-- The constructor `DataAnalyzer(stat_type, reader, writer)`. -/
def new (stat_type : IStatistics R) (reader : String → Except String (List R))
    (writer : String → List (StatResult R) → Except String Unit) : DataAnalyzer R :=
  { stat_type_ := stat_type, data_ := [], results_ := [], reader_ := reader, writer_ := writer }

/-- `DataAnalyzer::load_data`. -/
def load_data (a : DataAnalyzer R) (file_name : String) : DataAnalyzer R × Option String :=
  match a.reader_ file_name with
  | .ok data => ({ a with data_ := data, results_ := [] }, none)
  | .error message => ({ a with data_ := [], results_ := [] }, some message)

/-- `DataAnalyzer::set_statistics`. -/
def set_statistics (a : DataAnalyzer R) (stat_type : IStatistics R) : DataAnalyzer R :=
  { a with stat_type_ := stat_type }

/-- `DataAnalyzer::calculate`: the strategy's results are inserted at the end
of `results_`. -/
def calculate (a : DataAnalyzer R) : Option (DataAnalyzer R) :=
  match a.stat_type_.calculate a.data_ with
  | some current_results => some { a with results_ := a.results_ ++ current_results }
  | none => none

/-- `DataAnalyzer::results`. -/
def results (a : DataAnalyzer R) : List (StatResult R) := a.results_

end DataAnalyzer

end Ver_2

/-! ### The three versions side by side -/

/-- The strategy object of `Ver_2` for a statistic kind: `Avg` for `avg`,
`MinMax` for `min_max`, `Sum` for `sum`. -/
def strategyFor {R : Type} [DoubleOps R] : Ver_1.Statistics → Ver_2.IStatistics R
  | .avg => Ver_2.Avg
  | .min_max => Ver_2.MinMax
  | .sum => Ver_2.Sum

/-- The enum value of `LegacyCode` for a statistic kind. -/
def legacyKind : Ver_1.Statistics → LegacyCode.Statistics
  | .avg => .avg
  | .min_max => .min_max
  | .sum => .sum

/-- The entries the specification lists for a statistic kind:
`[("Avg", sum/n)]`, `[("Min", min), ("Max", max)]`, `[("Sum", sum)]`; the
minimum and maximum exist for non-empty data only. -/
def specEntries {R : Type} [DoubleOps R] (k : Ver_1.Statistics) (data : List R) :
    Option (List (StatResult R)) :=
  match k with
  | .avg => some [{ description := "Avg", value := accumulate data / (data.length : R) }]
  | .min_max =>
    match min_element data, max_element data with
    | some min, some max =>
      some [{ description := "Min", value := min }, { description := "Max", value := max }]
    | _, _ => none
  | .sum => some [{ description := "Sum", value := accumulate data }]

end DataAnalyzerHpp

namespace TDD

/-- The position lies inside the map: `0 ≤ x < W` and `0 ≤ y < H`. -/
def Position.inside (position : Position) (m : Map) : Prop :=
  (0 ≤ position.x ∧ position.x < (m.max_width_ : Int)) ∧
  (0 ≤ position.y ∧ position.y < (m.max_height_ : Int))

instance (position : Position) (m : Map) : Decidable (position.inside m) := by
  unfold Position.inside; infer_instance

/-- A builder on which `with_position(5, 5, North)`, `with_map(mars_map)` and
`with_obstacle_detector(stub)` were called, as in "Rover - obstacle detection". -/
def builder_with_stub : RoverBuilder ObstacleDetectorStub :=
  ((RoverBuilder.new.with_position 5 5 Direction.North).with_map mars_map).with_obstacle_detector
    (some ObstacleDetectorStub.mk)

/-! ## Lemmas on the integer conversions -/

theorem toSizeT_of_nonneg {v : Int} (h0 : 0 ≤ v) (h1 : v < 2 ^ 64) :
    toSizeT v = v.toNat := by
  unfold toSizeT SIZE_MOD
  rw [Int.emod_eq_of_lt h0 (by simpa using h1)]

theorem toSizeT_of_neg {v : Int} (h0 : v < 0) (h1 : -(2 ^ 64) ≤ v) :
    toSizeT v = (v + 2 ^ 64).toNat := by
  unfold toSizeT SIZE_MOD
  have h : v % ((2 ^ 64 : Nat) : Int) = v + 2 ^ 64 := by
    have h2 : (v + 2 ^ 64) % ((2 ^ 64 : Nat) : Int) = v + 2 ^ 64 :=
      Int.emod_eq_of_lt (by omega) (by push_cast; omega)
    rw [← h2]
    push_cast
    simp
  rw [h]

theorem toSizeT_lt (v : Int) : toSizeT v < SIZE_MOD := by
  unfold toSizeT
  have h1 : 0 ≤ v % (SIZE_MOD : Int) := Int.emod_nonneg _ (by unfold SIZE_MOD; norm_num)
  have h2 : v % (SIZE_MOD : Int) < (SIZE_MOD : Int) :=
    Int.emod_lt_of_pos _ (by unfold SIZE_MOD; norm_num)
  omega

theorem toInt_of_lt {n : Nat} (h : n < 2 ^ 31) : toInt n = (n : Int) := by
  unfold toInt
  have h1 : n % 2 ^ 32 = n := Nat.mod_eq_of_lt (by omega)
  rw [h1, if_pos h]

/-! ## `Map::wrap` -/

/-- C1: `Map(10, 20).wrap(-11, -21)` returns `(5, 15)`, while the mathematical
modulo of the two coordinates is `(9, 19)`; the three inputs of the test
"Map - wraps coordinates" give the expected `(0, 0)`, `(5, 5)`, `(9, 19)`. -/
theorem wrap_below_minus_width :
    map_10_20.wrap (-11) (-21) = some (5, 15) ∧
    (mathMod (-11) 10, mathMod (-21) 20) = (9, 19) ∧
    map_10_20.wrap 10 20 = some (0, 0) ∧
    map_10_20.wrap 15 25 = some (5, 5) ∧
    map_10_20.wrap (-1) (-1) = some (9, 19) := by
  decide

theorem wrap_in_range_aux (m : Map) (x y : Int)
    (hW : 0 < m.max_width_) (hH : 0 < m.max_height_) :
    ∃ wx wy : Nat, m.wrap x y = some (wx, wy) ∧
      0 ≤ wx ∧ wx < m.max_width_ ∧ 0 ≤ wy ∧ wy < m.max_height_ := by
  refine ⟨((toSizeT x + m.max_width_) % SIZE_MOD) % m.max_width_,
    ((toSizeT y + m.max_height_) % SIZE_MOD) % m.max_height_, ?_, Nat.zero_le _,
    Nat.mod_lt _ hW, Nat.zero_le _, Nat.mod_lt _ hH⟩
  unfold Map.wrap
  rw [if_neg (by omega)]

/-- C2: for a map with positive width and height, `wrap` is defined (no zero
divisor) for every pair of coordinates, and its result `(wx, wy)` satisfies
`0 ≤ wx < W` and `0 ≤ wy < H`. -/
theorem wrap_in_range (m : Map) (x y : Int)
    (hW : 0 < m.max_width_) (hH : 0 < m.max_height_) :
    ∃ wx wy : Nat, m.wrap x y = some (wx, wy) ∧
      0 ≤ wx ∧ wx < m.max_width_ ∧ 0 ≤ wy ∧ wy < m.max_height_ :=
  wrap_in_range_aux m x y hW hH

/-- Witness of C2 on the map of the test, at `(-1, -1)`. -/
theorem wrap_in_range_witness :
    0 < map_10_20.max_width_ ∧ 0 < map_10_20.max_height_ ∧
    ∃ wx wy : Nat, map_10_20.wrap (-1) (-1) = some (wx, wy) ∧
      0 ≤ wx ∧ wx < map_10_20.max_width_ ∧ 0 ≤ wy ∧ wy < map_10_20.max_height_ :=
  ⟨by decide, by decide, wrap_in_range map_10_20 (-1) (-1) (by decide) (by decide)⟩

/-- C3: on `Map(10, 20)`, `wrap(-11, -21)` is `(5, 15)` and
`wrap(-11 + 10, -21 + 20)` is `(9, 19)`: the two differ. -/
theorem wrap_not_periodic_below_minus_width :
    map_10_20.wrap (-11) (-21) = some (5, 15) ∧
    map_10_20.wrap (-11 + 10) (-21 + 20) = some (9, 19) ∧
    map_10_20.wrap (-11) (-21) ≠ map_10_20.wrap (-11 + 10) (-21 + 20) := by
  decide

/-! ## Lemmas on sequencing and on the command loop -/

section Loop

variable {D : Type}

theorem Result.andThen_ok (first : Result D) (next : Rover D → Result D)
    (h : first.outcome = .ok) :
    first.andThen next =
      { outcome := (next first.rover).outcome, rover := (next first.rover).rover,
        queries := first.queries ++ (next first.rover).queries } := by
  unfold Result.andThen
  rw [h]

theorem Result.andThen_not_ok (first : Result D) (next : Rover D → Result D)
    (h : first.outcome ≠ .ok) : first.andThen next = first := by
  unfold Result.andThen
  split
  · contradiction
  · rfl

theorem Result.returned_andThen (r : Rover D) (next : Rover D → Result D) :
    (Rover.returned r).andThen next = next r := by
  rw [Result.andThen_ok _ _ rfl]
  simp [Rover.returned]

theorem Result.andThen_assoc (first : Result D) (f g : Rover D → Result D) :
    (first.andThen f).andThen g = first.andThen fun r => (f r).andThen g := by
  rcases first with ⟨o, r, q⟩
  cases o <;> simp only [Result.andThen]
  cases h : (f r).outcome <;> simp [h, Result.andThen]

theorem Rover.execute_loop_append [ObstacleDetector D] (r : Rover D) (p q : List Char) :
    r.execute_loop (p ++ q) = (r.execute_loop p).andThen fun r1 => r1.execute_loop q := by
  induction p generalizing r with
  | nil => simp [Rover.execute_loop, Result.returned_andThen]
  | cons c p ih =>
    simp only [List.cons_append, Rover.execute_loop]
    rw [Result.andThen_assoc]
    congr 1
    funext r1
    exact ih r1

end Loop

/-! ## Lemmas on `std::toupper` and on the dispatch -/

theorem char_eq_iff_toNat (c d : Char) : c = d ↔ c.toNat = d.toNat := by
  constructor
  · intro h; rw [h]
  · intro h
    rw [← Char.ofNat_toNat c, ← Char.ofNat_toNat d, h]

theorem toupper_toNat (c : Char) :
    (Rover.toupper c).toNat =
      if 97 ≤ c.toNat ∧ c.toNat ≤ 122 then c.toNat - 32 else c.toNat := by
  unfold Rover.toupper Char.toUpper
  simp only [ge_iff_le]
  split
  · rename_i h
    obtain ⟨h1, h2⟩ := h
    generalize c.toNat = n at h1 h2
    interval_cases n <;> rfl
  · rfl

theorem toupper_eq_upper (c u l : Char) (hu : 65 ≤ u.toNat ∧ u.toNat ≤ 90)
    (hl : l.toNat = u.toNat + 32) :
    Rover.toupper c = u ↔ c = u ∨ c = l := by
  rw [char_eq_iff_toNat, char_eq_iff_toNat c u, char_eq_iff_toNat c l, toupper_toNat, hl]
  split <;> omega

theorem toupper_eq_L (c : Char) : Rover.toupper c = 'L' ↔ c = 'L' ∨ c = 'l' :=
  toupper_eq_upper c 'L' 'l' (by decide) (by decide)

theorem toupper_eq_R (c : Char) : Rover.toupper c = 'R' ↔ c = 'R' ∨ c = 'r' :=
  toupper_eq_upper c 'R' 'r' (by decide) (by decide)

theorem toupper_eq_F (c : Char) : Rover.toupper c = 'F' ↔ c = 'F' ∨ c = 'f' :=
  toupper_eq_upper c 'F' 'f' (by decide) (by decide)

theorem toupper_eq_B (c : Char) : Rover.toupper c = 'B' ↔ c = 'B' ∨ c = 'b' :=
  toupper_eq_upper c 'B' 'b' (by decide) (by decide)

/-- The message built for a character other than NUL is read back whole by
`what()`. -/
theorem Rover.what_unknown_command (c : Char) (hc : c ≠ Char.ofNat 0) :
    Rover.what ("Unknown command: ".push c) = "Unknown command: ".push c := by
  have hb : (c != Char.ofNat 0) = true := by simpa using hc
  have e : ("Unknown command: ".push c).data
      = ['U', 'n', 'k', 'n', 'o', 'w', 'n', ' ', 'c', 'o', 'm', 'm', 'a', 'n', 'd', ':', ' ', c] :=
    rfl
  unfold Rover.what
  rw [e]
  have t : List.takeWhile (fun ch => ch != Char.ofNat 0)
      ['U', 'n', 'k', 'n', 'o', 'w', 'n', ' ', 'c', 'o', 'm', 'm', 'a', 'n', 'd', ':', ' ', c]
      = ['U', 'n', 'k', 'n', 'o', 'w', 'n', ' ', 'c', 'o', 'm', 'm', 'a', 'n', 'd', ':', ' ', c] := by
    simp only [List.takeWhile, hb]
    rfl
  rw [t]
  rfl

section Dispatch

variable {D : Type} [ObstacleDetector D]

theorem Rover.dispatch_unknown (r : Rover D) (c : Char)
    (hc : c ∉ commandLetters) :
    r.dispatch c =
      { outcome := .UnknownCommandException (Rover.what ("Unknown command: ".push c)),
        rover := r, queries := [] } := by
  simp only [commandLetters, List.mem_cons, List.mem_singleton, List.not_mem_nil, or_false,
    not_or] at hc
  obtain ⟨hF, hf, hB, hb, hL, hl, hR, hr⟩ := hc
  have h1 : Rover.toupper c ≠ 'L' := fun h => ((toupper_eq_L c).1 h).elim hL hl
  have h2 : Rover.toupper c ≠ 'R' := fun h => ((toupper_eq_R c).1 h).elim hR hr
  have h3 : Rover.toupper c ≠ 'F' := fun h => ((toupper_eq_F c).1 h).elim hF hf
  have h4 : Rover.toupper c ≠ 'B' := fun h => ((toupper_eq_B c).1 h).elim hB hb
  unfold Rover.dispatch
  rw [if_neg h1, if_neg h2, if_neg h3, if_neg h4]

theorem Rover.dispatch_F (r : Rover D) (c : Char) (hc : c = 'F' ∨ c = 'f') :
    r.dispatch c = r.move_forward := by
  rcases hc with h | h <;> subst h <;> rfl

theorem Rover.dispatch_B (r : Rover D) (c : Char) (hc : c = 'B' ∨ c = 'b') :
    r.dispatch c = r.move_backward := by
  rcases hc with h | h <;> subst h <;> rfl

theorem Rover.dispatch_L (r : Rover D) (c : Char) (hc : c = 'L' ∨ c = 'l') :
    r.dispatch c = Rover.returned r.turn_left := by
  rcases hc with h | h <;> subst h <;> rfl

theorem Rover.dispatch_R (r : Rover D) (c : Char) (hc : c = 'R' ∨ c = 'r') :
    r.dispatch c = Rover.returned r.turn_right := by
  rcases hc with h | h <;> subst h <;> rfl

theorem Rover.move_forward_flagged (r : Rover D) (d : D) (cand : Position)
    (hd : r.obstacle_detector_ = some d)
    (hc : r.next_forward_position r.position_ = some cand)
    (hflag : (ObstacleDetector.is_obstacle_for d (toSizeT cand.x) (toSizeT cand.y)).1 = true) :
    r.move_forward =
      { outcome := .ObstacleDetectedException "Obstacle detected!!!",
        rover :=
          { r with
            obstacle_detector_ :=
              some (ObstacleDetector.is_obstacle_for d (toSizeT cand.x) (toSizeT cand.y)).2 },
        queries := [(toSizeT cand.x, toSizeT cand.y)] } := by
  unfold Rover.move_forward
  simp only [hc, hd, hflag, if_true]

theorem Rover.move_backward_flagged (r : Rover D) (d : D) (cand : Position)
    (hd : r.obstacle_detector_ = some d)
    (hc : r.next_backward_position r.position_ = some cand)
    (hflag : (ObstacleDetector.is_obstacle_for d (toSizeT cand.x) (toSizeT cand.y)).1 = true) :
    r.move_backward =
      { outcome := .ObstacleDetectedException "Obstacle detected!!!",
        rover :=
          { r with
            obstacle_detector_ :=
              some (ObstacleDetector.is_obstacle_for d (toSizeT cand.x) (toSizeT cand.y)).2 },
        queries := [(toSizeT cand.x, toSizeT cand.y)] } := by
  unfold Rover.move_backward
  simp only [hc, hd, hflag, if_true]

end Dispatch

/-! ## Obstacle veto and partial application -/

/-- C4: on a rover with a detector, when the detector answers `true` at the
candidate cell of `move_forward` (resp. `move_backward`), the call throws
`ObstacleDetectedException` and `get_position()` afterwards is the position
before the call, `x`, `y` and facing alike. -/
theorem move_veto_atomic {D : Type} [ObstacleDetector D] (r : Rover D) (d : D)
    (hd : r.obstacle_detector_ = some d) :
    (∀ cand : Position, r.next_forward_position r.position_ = some cand →
      (ObstacleDetector.is_obstacle_for d (toSizeT cand.x) (toSizeT cand.y)).1 = true →
      r.move_forward.outcome = .ObstacleDetectedException "Obstacle detected!!!" ∧
      r.move_forward.rover.get_position = r.get_position) ∧
    (∀ cand : Position, r.next_backward_position r.position_ = some cand →
      (ObstacleDetector.is_obstacle_for d (toSizeT cand.x) (toSizeT cand.y)).1 = true →
      r.move_backward.outcome = .ObstacleDetectedException "Obstacle detected!!!" ∧
      r.move_backward.rover.get_position = r.get_position) := by
  constructor
  · intro cand hc hflag
    rw [Rover.move_forward_flagged r d cand hd hc hflag]
    exact ⟨rfl, rfl⟩
  · intro cand hc hflag
    rw [Rover.move_backward_flagged r d cand hd hc hflag]
    exact ⟨rfl, rfl⟩

/-- Witness of C4: on the 10 x 10 map with the stub flagging `(5, 8)`, a
forward move from `(5, 7, North)` and a backward move from `(5, 9, North)` are
both vetoed and leave the position as it was. -/
theorem move_veto_atomic_witness :
    ((Rover.new 5 7 Direction.North (some mars_map) (some ObstacleDetectorStub.mk)).move_forward.outcome
        = .ObstacleDetectedException "Obstacle detected!!!" ∧
      (Rover.new 5 7 Direction.North (some mars_map)
        (some ObstacleDetectorStub.mk)).move_forward.rover.get_position
        = { x := 5, y := 7, direction := Direction.North }) ∧
    ((Rover.new 5 9 Direction.North (some mars_map) (some ObstacleDetectorStub.mk)).move_backward.outcome
        = .ObstacleDetectedException "Obstacle detected!!!" ∧
      (Rover.new 5 9 Direction.North (some mars_map)
        (some ObstacleDetectorStub.mk)).move_backward.rover.get_position
        = { x := 5, y := 9, direction := Direction.North }) :=
  ⟨(move_veto_atomic (Rover.new 5 7 Direction.North (some mars_map) (some ObstacleDetectorStub.mk))
      ObstacleDetectorStub.mk rfl).1 { x := 5, y := 8, direction := Direction.North }
      (by decide) (by decide),
   (move_veto_atomic (Rover.new 5 9 Direction.North (some mars_map) (some ObstacleDetectorStub.mk))
      ObstacleDetectorStub.mk rfl).2 { x := 5, y := 8, direction := Direction.North }
      (by decide) (by decide)⟩

/-- C5: when `execute(p)` returns normally (every command of `p` is one of
F, B, L, R in either case and none is vetoed) and `c` is none of F, B, L, R in
either case, `execute(p ++ [c] ++ rest)` throws `UnknownCommandException` and
leaves the rover as `execute(p)` alone leaves it (same position, and no call on
the detector beyond those of `p`): `c` and `rest` are not applied. The message
is `what()` of `"Unknown command: " + c`, which is that very string unless `c`
is NUL. -/
theorem execute_unknown_command {D : Type} [ObstacleDetector D] (r : Rover D)
    (p rest : List Char) (c : Char)
    (hp : (r.execute (String.mk p)).outcome = .ok)
    (hc : c ∉ commandLetters) :
    (r.execute (String.mk (p ++ c :: rest))).outcome
      = .UnknownCommandException (Rover.what ("Unknown command: ".push c)) ∧
    (c ≠ Char.ofNat 0 →
      (r.execute (String.mk (p ++ c :: rest))).outcome
        = .UnknownCommandException ("Unknown command: ".push c)) ∧
    (r.execute (String.mk (p ++ c :: rest))).rover.get_position
      = (r.execute (String.mk p)).rover.get_position ∧
    (r.execute (String.mk (p ++ c :: rest))).rover = (r.execute (String.mk p)).rover ∧
    (r.execute (String.mk (p ++ c :: rest))).queries = (r.execute (String.mk p)).queries := by
  unfold Rover.execute at hp ⊢
  simp only at hp ⊢
  rw [Rover.execute_loop_append, Result.andThen_ok _ _ hp]
  simp only [Rover.execute_loop, Rover.dispatch_unknown _ c hc]
  rw [Result.andThen_not_ok _ _ (by simp)]
  refine ⟨rfl, ?_, rfl, rfl, by simp⟩
  intro hnul
  rw [Rover.what_unknown_command c hnul]

/-- Witness of C5: `execute("FFxFFF")` from `(5, 5, East)` throws
`UnknownCommandException` and leaves `(7, 5, East)`, where `execute("FF")`
leaves the rover. -/
theorem execute_unknown_command_witness :
    (rover_plain.execute "FF").outcome = .ok ∧ 'x' ∉ commandLetters ∧
    (rover_plain.execute "FFxFFF").outcome = .UnknownCommandException "Unknown command: x" ∧
    (rover_plain.execute "FFxFFF").rover.get_position
      = { x := 7, y := 5, direction := Direction.East } :=
  have h := execute_unknown_command rover_plain ['F', 'F'] ['F', 'F', 'F'] 'x'
    (by decide) (by decide)
  ⟨by decide, by decide, h.2.1 (by decide), h.2.2.1.trans (by decide)⟩

/-- C6: when `execute(p)` returns normally, leaving a rover with detector `d`,
and `m` is a move (F or f with the forward candidate, B or b with the backward
candidate) at whose candidate cell `d` answers `true`, then
`execute(p ++ [m] ++ rest)` throws `ObstacleDetectedException` and leaves the
position reached by `execute(p)` alone: `m` and `rest` are not applied. -/
theorem execute_obstacle {D : Type} [ObstacleDetector D] (r : Rover D)
    (p rest : List Char) (m : Char) (d : D) (cand : Position)
    (hp : (r.execute (String.mk p)).outcome = .ok)
    (hd : (r.execute (String.mk p)).rover.obstacle_detector_ = some d)
    (hm : ((m = 'F' ∨ m = 'f') ∧
        (r.execute (String.mk p)).rover.next_forward_position
          (r.execute (String.mk p)).rover.position_ = some cand) ∨
      ((m = 'B' ∨ m = 'b') ∧
        (r.execute (String.mk p)).rover.next_backward_position
          (r.execute (String.mk p)).rover.position_ = some cand))
    (hflag : (ObstacleDetector.is_obstacle_for d (toSizeT cand.x) (toSizeT cand.y)).1 = true) :
    (r.execute (String.mk (p ++ m :: rest))).outcome
      = .ObstacleDetectedException "Obstacle detected!!!" ∧
    (r.execute (String.mk (p ++ m :: rest))).rover.get_position
      = (r.execute (String.mk p)).rover.get_position := by
  unfold Rover.execute at hp hd hm ⊢
  simp only at hp hd hm ⊢
  rw [Rover.execute_loop_append, Result.andThen_ok _ _ hp]
  simp only [Rover.execute_loop]
  rcases hm with ⟨hF, hc⟩ | ⟨hB, hc⟩
  · rw [Rover.dispatch_F _ m hF, Rover.move_forward_flagged _ d cand hd hc hflag,
      Result.andThen_not_ok _ _ (by simp)]
    exact ⟨rfl, rfl⟩
  · rw [Rover.dispatch_B _ m hB, Rover.move_backward_flagged _ d cand hd hc hflag,
      Result.andThen_not_ok _ _ (by simp)]
    exact ⟨rfl, rfl⟩

/-- Witness of C6: 10 x 10 map, stub flagging exactly `(5, 8)`, start
`(5, 5, North)`: `execute("FFFFFFF")` throws `ObstacleDetectedException` and
leaves `(5, 7, North)`, where `execute("FF")` leaves the rover. -/
theorem execute_obstacle_witness :
    (rover_with_stub.execute "FF").outcome = .ok ∧
    (rover_with_stub.execute "FF").rover.get_position
      = { x := 5, y := 7, direction := Direction.North } ∧
    (rover_with_stub.execute "FFFFFFF").outcome
      = .ObstacleDetectedException "Obstacle detected!!!" ∧
    (rover_with_stub.execute "FFFFFFF").rover.get_position
      = { x := 5, y := 7, direction := Direction.North } :=
  have h := execute_obstacle rover_with_stub ['F', 'F'] ['F', 'F', 'F', 'F'] 'F'
    ObstacleDetectorStub.mk { x := 5, y := 8, direction := Direction.North }
    (by decide) (by decide) (Or.inl ⟨Or.inl rfl, by decide⟩) (by decide)
  ⟨by decide, by decide, h.1, h.2.trans (by decide)⟩

/-! ## Candidate positions -/

theorem Map.wrap_eq_some (m : Map) (x y : Int) (wx wy : Nat)
    (h : m.wrap x y = some (wx, wy)) :
    0 < m.max_width_ ∧ 0 < m.max_height_ ∧
    wx = ((toSizeT x + m.max_width_) % SIZE_MOD) % m.max_width_ ∧
    wy = ((toSizeT y + m.max_height_) % SIZE_MOD) % m.max_height_ := by
  unfold Map.wrap at h
  split at h
  · cases h
  · rename_i hz
    simp only [Option.some.injEq, Prod.mk.injEq] at h
    refine ⟨by omega, by omega, h.1.symm, h.2.symm⟩

theorem Rover.wrap_coordinates_on_map {D : Type} (r : Rover D) (m : Map)
    (position cand : Position) (hm : r.map_ = some m)
    (h : r.wrap_coordinates position = some cand) :
    ∃ wx wy : Nat, m.wrap position.x position.y = some (wx, wy) ∧
      cand = { x := toInt wx, y := toInt wy, direction := position.direction } := by
  unfold Rover.wrap_coordinates at h
  rw [hm] at h
  simp only at h
  split at h
  · rename_i wx wy hw
    exact ⟨wx, wy, hw, by cases h; rfl⟩
  · cases h

theorem Rover.wrap_coordinates_no_map {D : Type} (r : Rover D) (position : Position)
    (hm : r.map_ = none) : r.wrap_coordinates position = some position := by
  unfold Rover.wrap_coordinates
  rw [hm]

theorem addInt_eq_some (a b v : Int) (h : addInt a b = some v) : v = a + b ∧ isInt (a + b) := by
  unfold addInt at h
  split at h
  · rename_i hi
    cases h
    exact ⟨rfl, hi⟩
  · cases h

theorem Rover.candidate_eq_some {D : Type} (r : Rover D) (forward : Bool) (cand : Position)
    (h : r.candidate forward = some cand) :
    r.wrap_coordinates (r.position_.shifted (if forward then 1 else -1)) = some cand := by
  unfold Rover.candidate at h
  generalize r.position_ = position at h ⊢
  rcases position with ⟨x, y, dir⟩
  cases forward <;> cases dir <;>
    simp only [Rover.next_forward_position, Rover.next_backward_position, Position.shifted,
      forwardVector, addInt, Bool.false_eq_true, if_false, if_true] at h ⊢ <;>
    split at h <;> simp_all

theorem Rover.candidate_of_isInt {D : Type} (r : Rover D) (forward : Bool)
    (hx : isInt (r.position_.shifted (if forward then 1 else -1)).x)
    (hy : isInt (r.position_.shifted (if forward then 1 else -1)).y) :
    r.candidate forward
      = r.wrap_coordinates (r.position_.shifted (if forward then 1 else -1)) := by
  unfold Rover.candidate
  generalize r.position_ = position at hx hy ⊢
  rcases position with ⟨x, y, dir⟩
  cases forward <;> cases dir <;>
    simp only [Rover.next_forward_position, Rover.next_backward_position, Position.shifted,
      forwardVector, addInt, Bool.false_eq_true, if_false, if_true] at hx hy ⊢ <;>
    simp_all

theorem Rover.candidate_on_map {D : Type} (r : Rover D) (m : Map) (forward : Bool)
    (cand : Position) (hm : r.map_ = some m) (h : r.candidate forward = some cand) :
    ∃ wx wy : Nat, wx < m.max_width_ ∧ wy < m.max_height_ ∧
      m.wrap (r.position_.shifted (if forward then 1 else -1)).x
        (r.position_.shifted (if forward then 1 else -1)).y = some (wx, wy) ∧
      cand = { x := toInt wx, y := toInt wy, direction := r.position_.direction } := by
  have h1 := Rover.candidate_eq_some r forward cand h
  obtain ⟨wx, wy, hw, hc⟩ := Rover.wrap_coordinates_on_map r m _ cand hm h1
  obtain ⟨hW, hH, hx, hy⟩ := Map.wrap_eq_some m _ _ wx wy hw
  refine ⟨wx, wy, ?_, ?_, hw, hc⟩
  · rw [hx]; exact Nat.mod_lt _ hW
  · rw [hy]; exact Nat.mod_lt _ hH

/-! ## One move attempt -/

section Move

variable {D : Type} [ObstacleDetector D]

theorem Rover.move_no_candidate (r : Rover D) (forward : Bool)
    (hc : r.candidate forward = none) :
    r.move forward = { outcome := .undefined, rover := r, queries := [] } := by
  cases forward <;>
    simp only [Rover.move, Rover.candidate, Bool.false_eq_true, if_false, if_true] at hc ⊢
  · unfold Rover.move_backward
    rw [hc]
  · unfold Rover.move_forward
    rw [hc]

theorem Rover.move_no_detector (r : Rover D) (forward : Bool) (cand : Position)
    (hd : r.obstacle_detector_ = none) (hc : r.candidate forward = some cand) :
    r.move forward =
      { outcome := .ok, rover := { r with position_ := cand }, queries := [] } := by
  cases forward <;>
    simp only [Rover.move, Rover.candidate, Bool.false_eq_true, if_false, if_true] at hc ⊢
  · unfold Rover.move_backward
    simp only [hc, hd]
  · unfold Rover.move_forward
    simp only [hc, hd]

theorem Rover.move_with_detector (r : Rover D) (forward : Bool) (d : D) (cand : Position)
    (hd : r.obstacle_detector_ = some d) (hc : r.candidate forward = some cand) :
    r.move forward =
      if (ObstacleDetector.is_obstacle_for d (toSizeT cand.x) (toSizeT cand.y)).1 then
        { outcome := .ObstacleDetectedException "Obstacle detected!!!",
          rover :=
            { r with
              obstacle_detector_ :=
                some (ObstacleDetector.is_obstacle_for d (toSizeT cand.x) (toSizeT cand.y)).2 },
          queries := [(toSizeT cand.x, toSizeT cand.y)] }
      else
        { outcome := .ok,
          rover :=
            { r with
              position_ := cand
              obstacle_detector_ :=
                some (ObstacleDetector.is_obstacle_for d (toSizeT cand.x) (toSizeT cand.y)).2 },
          queries := [(toSizeT cand.x, toSizeT cand.y)] } := by
  cases forward <;>
    simp only [Rover.move, Rover.candidate, Bool.false_eq_true, if_false, if_true] at hc ⊢
  · unfold Rover.move_backward
    simp only [hc, hd]
  · unfold Rover.move_forward
    simp only [hc, hd]

end Move

theorem toSizeT_cast_of_nonneg {v : Int} (h0 : 0 ≤ v) (h1 : isInt v) :
    ((toSizeT v : Nat) : Int) = v := by
  have h2 : v < 2 ^ 64 := by
    have := h1.2
    unfold INT_MAX at this
    omega
  rw [toSizeT_of_nonneg h0 h2]
  exact Int.toNat_of_nonneg h0

theorem toSizeT_cast_of_neg {v : Int} (h0 : v < 0) (h1 : isInt v) :
    ((toSizeT v : Nat) : Int) = v + 2 ^ 64 := by
  have h2 : -(2 ^ 64) ≤ v := by
    have := h1.1
    unfold INT_MIN at this
    omega
  rw [toSizeT_of_neg h0 h2]
  exact Int.toNat_of_nonneg (by omega)

/-! ## What the detector is asked -/

/-- What a move hands to the detector: on a rover with a detector, a move
attempt with candidate `cand` asks the detector exactly once, about `cand.x` and `cand.y`
converted to `size_t`, and `cand` is the position the rover takes when the move
is committed. With a map of width and height at most `2 ^ 31` the converted
pair is the candidate pair itself; in general a non-negative `int` coordinate
is handed over unchanged and a negative one `v` as `2 ^ 64 + v`. -/
theorem detector_query_is_converted_candidate {D : Type} [ObstacleDetector D]
    (r : Rover D) (d : D) (forward : Bool) (cand : Position)
    (hd : r.obstacle_detector_ = some d) (hc : r.candidate forward = some cand) :
    (r.move forward).queries = [(toSizeT cand.x, toSizeT cand.y)] ∧
    ((r.move forward).outcome = .ok → (r.move forward).rover.get_position = cand) ∧
    (∀ m : Map, r.map_ = some m → m.max_width_ ≤ 2 ^ 31 → m.max_height_ ≤ 2 ^ 31 →
      ((toSizeT cand.x : Nat) : Int) = cand.x ∧ ((toSizeT cand.y : Nat) : Int) = cand.y) ∧
    (isInt cand.x →
      ((toSizeT cand.x : Nat) : Int) = if 0 ≤ cand.x then cand.x else cand.x + 2 ^ 64) ∧
    (isInt cand.y →
      ((toSizeT cand.y : Nat) : Int) = if 0 ≤ cand.y then cand.y else cand.y + 2 ^ 64) := by
  have conv : ∀ v : Int, isInt v →
      ((toSizeT v : Nat) : Int) = if 0 ≤ v then v else v + 2 ^ 64 := by
    intro v hv
    split
    · rename_i h0
      exact toSizeT_cast_of_nonneg h0 hv
    · rename_i h0
      exact toSizeT_cast_of_neg (by omega) hv
  refine ⟨?_, ?_, ?_, conv _, conv _⟩
  · rw [Rover.move_with_detector r forward d cand hd hc]
    split <;> rfl
  · rw [Rover.move_with_detector r forward d cand hd hc]
    split
    · intro h; cases h
    · intro _; rfl
  · intro m hm hW hH
    obtain ⟨wx, wy, hwx, hwy, _, hcand⟩ := Rover.candidate_on_map r m forward cand hm hc
    have hx : cand.x = (wx : Int) := by rw [hcand]; exact toInt_of_lt (by omega)
    have hy : cand.y = (wy : Int) := by rw [hcand]; exact toInt_of_lt (by omega)
    have ix : isInt cand.x := by
      rw [hx]; unfold isInt INT_MIN INT_MAX; omega
    have iy : isInt cand.y := by
      rw [hy]; unfold isInt INT_MIN INT_MAX; omega
    exact ⟨toSizeT_cast_of_nonneg (by omega) ix, toSizeT_cast_of_nonneg (by omega) iy⟩

/-- An instance of `detector_query_is_converted_candidate`: from
`(5, 5, North)` on the 10 x 10 map, a forward move has candidate
`(5, 6, North)` and the stub is asked about `(5, 6)`. -/
theorem detector_query_is_converted_candidate_witness :
    rover_with_stub.obstacle_detector_ = some ObstacleDetectorStub.mk ∧
    rover_with_stub.candidate true = some { x := 5, y := 6, direction := Direction.North } ∧
    (rover_with_stub.move true).queries = [(5, 6)] :=
  ⟨rfl, by decide,
    (detector_query_is_converted_candidate rover_with_stub ObstacleDetectorStub.mk true
      { x := 5, y := 6, direction := Direction.North } rfl (by decide)).1.trans (by decide)⟩

/-- C7: on a rover without map at `(0, 0, South)`, a forward move is committed
at `(0, -1, South)`, and the detector was asked about
`(0, 18446744073709551615)`, not about the pair `(0, -1)` the position takes:
the `int` coordinates are converted to `size_t` at the call. -/
theorem detector_query_not_position_counterexample :
    rover_origin_south.move_forward.outcome = .ok ∧
    rover_origin_south.move_forward.rover.get_position
      = { x := 0, y := -1, direction := Direction.South } ∧
    rover_origin_south.move_forward.queries = [(0, 18446744073709551615)] ∧
    ¬ (∀ q ∈ rover_origin_south.move_forward.queries,
        ((q.1 : Nat) : Int) = rover_origin_south.move_forward.rover.get_position.x ∧
        ((q.2 : Nat) : Int) = rover_origin_south.move_forward.rover.get_position.y) := by
  decide

/-! ## Counting the calls on the detector -/

theorem Result.andThen_returned {D : Type} (first : Result D) :
    first.andThen Rover.returned = first := by
  rcases first with ⟨o, r, q⟩
  cases o <;> simp [Result.andThen, Rover.returned]

section Count

variable {D : Type} [ObstacleDetector D]

theorem Rover.dispatch_cases (r : Rover D) (c : Char) :
    ((c = 'L' ∨ c = 'l') ∧ r.dispatch c = Rover.returned r.turn_left) ∨
    ((c = 'R' ∨ c = 'r') ∧ r.dispatch c = Rover.returned r.turn_right) ∨
    ((c = 'F' ∨ c = 'f') ∧ r.dispatch c = r.move true) ∨
    ((c = 'B' ∨ c = 'b') ∧ r.dispatch c = r.move false) ∨
    (c ∉ commandLetters ∧ r.dispatch c =
      { outcome := .UnknownCommandException (Rover.what ("Unknown command: ".push c)),
        rover := r, queries := [] }) := by
  by_cases hL : c = 'L' ∨ c = 'l'
  · exact Or.inl ⟨hL, Rover.dispatch_L r c hL⟩
  by_cases hR : c = 'R' ∨ c = 'r'
  · exact Or.inr (Or.inl ⟨hR, Rover.dispatch_R r c hR⟩)
  by_cases hF : c = 'F' ∨ c = 'f'
  · exact Or.inr (Or.inr (Or.inl ⟨hF, Rover.dispatch_F r c hF⟩))
  by_cases hB : c = 'B' ∨ c = 'b'
  · exact Or.inr (Or.inr (Or.inr (Or.inl ⟨hB, Rover.dispatch_B r c hB⟩)))
  have hc : c ∉ commandLetters := by
    simp only [commandLetters, List.mem_cons, List.mem_singleton, List.not_mem_nil, or_false]
    tauto
  exact Or.inr (Or.inr (Or.inr (Or.inr ⟨hc, Rover.dispatch_unknown r c hc⟩)))

theorem moveCount_cons (c : Char) (s : List Char) :
    moveCount (c :: s) = moveCount [c] + moveCount s := by
  have h : c :: s = [c] ++ s := rfl
  unfold moveCount
  rw [h, List.filter_append, List.length_append]

theorem moveCount_append (p q : List Char) :
    moveCount (p ++ q) = moveCount p + moveCount q := by
  unfold moveCount
  simp [List.filter_append]

theorem moveCount_move (c : Char) (h : (c = 'F' ∨ c = 'f') ∨ (c = 'B' ∨ c = 'b')) :
    moveCount [c] = 1 := by
  rcases h with (h | h) | (h | h) <;> subst h <;> rfl

theorem moveCount_not_move (c : Char)
    (h : (c = 'L' ∨ c = 'l') ∨ (c = 'R' ∨ c = 'r') ∨ c ∉ commandLetters) :
    moveCount [c] = 0 := by
  rcases h with (h | h) | (h | h) | h
  · subst h; rfl
  · subst h; rfl
  · subst h; rfl
  · subst h; rfl
  · simp only [commandLetters, List.mem_cons, List.mem_singleton, List.not_mem_nil, or_false,
      not_or] at h
    unfold moveCount
    simp [List.filter_cons, h.1, h.2.1, h.2.2.1, h.2.2.2.1]

/-- One move attempt on a rover with a detector: one call on the detector unless
the behaviour is undefined, and the rover keeps a detector. -/
theorem Rover.move_queries_with_detector (r : Rover D) (forward : Bool)
    (hd : r.obstacle_detector_.isSome = true) :
    ((r.move forward).outcome ≠ .undefined → (r.move forward).queries.length = 1) ∧
    (r.move forward).rover.obstacle_detector_.isSome = true := by
  obtain ⟨d, hd1⟩ := Option.isSome_iff_exists.1 hd
  cases hc : r.candidate forward with
  | none =>
    rw [Rover.move_no_candidate r forward hc]
    exact ⟨fun h => absurd rfl h, hd⟩
  | some cand =>
    rw [Rover.move_with_detector r forward d cand hd1 hc]
    split <;> exact ⟨fun _ => rfl, rfl⟩

/-- One move attempt on a rover without a detector: no call, and still no
detector afterwards. -/
theorem Rover.move_queries_no_detector (r : Rover D) (forward : Bool)
    (hd : r.obstacle_detector_ = none) :
    (r.move forward).queries = [] ∧ (r.move forward).rover.obstacle_detector_ = none := by
  cases hc : r.candidate forward with
  | none =>
    rw [Rover.move_no_candidate r forward hc]
    exact ⟨rfl, hd⟩
  | some cand =>
    rw [Rover.move_no_detector r forward cand hd hc]
    exact ⟨rfl, hd⟩

/-- One dispatched command on a rover with a detector. -/
theorem Rover.dispatch_queries_with_detector (r : Rover D) (c : Char)
    (hd : r.obstacle_detector_.isSome = true) :
    ((r.dispatch c).outcome ≠ .undefined → (r.dispatch c).queries.length = moveCount [c]) ∧
    (r.dispatch c).rover.obstacle_detector_.isSome = true := by
  rcases Rover.dispatch_cases r c with ⟨h, e⟩ | ⟨h, e⟩ | ⟨h, e⟩ | ⟨h, e⟩ | ⟨h, e⟩
  · rw [e, moveCount_not_move c (Or.inl h)]
    exact ⟨fun _ => rfl, hd⟩
  · rw [e, moveCount_not_move c (Or.inr (Or.inl h))]
    exact ⟨fun _ => rfl, hd⟩
  · rw [e, moveCount_move c (Or.inl h)]
    exact Rover.move_queries_with_detector r true hd
  · rw [e, moveCount_move c (Or.inr h)]
    exact Rover.move_queries_with_detector r false hd
  · rw [e, moveCount_not_move c (Or.inr (Or.inr h))]
    exact ⟨fun _ => rfl, hd⟩

/-- One dispatched command on a rover without a detector. -/
theorem Rover.dispatch_queries_no_detector (r : Rover D) (c : Char)
    (hd : r.obstacle_detector_ = none) :
    (r.dispatch c).queries = [] ∧ (r.dispatch c).rover.obstacle_detector_ = none := by
  rcases Rover.dispatch_cases r c with ⟨_, e⟩ | ⟨_, e⟩ | ⟨_, e⟩ | ⟨_, e⟩ | ⟨_, e⟩
  · rw [e]; exact ⟨rfl, hd⟩
  · rw [e]; exact ⟨rfl, hd⟩
  · rw [e]; exact Rover.move_queries_no_detector r true hd
  · rw [e]; exact Rover.move_queries_no_detector r false hd
  · rw [e]; exact ⟨rfl, hd⟩

theorem Rover.execute_loop_no_detector (r : Rover D) (s : List Char)
    (hd : r.obstacle_detector_ = none) : (r.execute_loop s).queries = [] := by
  induction s generalizing r with
  | nil => rfl
  | cons c s ih =>
    simp only [Rover.execute_loop]
    obtain ⟨h1, h2⟩ := Rover.dispatch_queries_no_detector r c hd
    by_cases hok : (r.dispatch c).outcome = .ok
    · rw [Result.andThen_ok _ _ hok]
      simp [h1, ih _ h2]
    · rw [Result.andThen_not_ok _ _ hok]
      exact h1

/-- A run that is not undefined makes one call per move command it reached:
all of `s` when it returns normally. -/
theorem Rover.execute_loop_ok_count (r : Rover D) (s : List Char)
    (hd : r.obstacle_detector_.isSome = true) (hok : (r.execute_loop s).outcome = .ok) :
    (r.execute_loop s).queries.length = moveCount s ∧
    (r.execute_loop s).rover.obstacle_detector_.isSome = true := by
  induction s generalizing r with
  | nil => exact ⟨rfl, hd⟩
  | cons c s ih =>
    simp only [Rover.execute_loop] at hok ⊢
    obtain ⟨h1, h2⟩ := Rover.dispatch_queries_with_detector r c hd
    by_cases hc : (r.dispatch c).outcome = .ok
    · rw [Result.andThen_ok _ _ hc] at hok ⊢
      simp only at hok ⊢
      obtain ⟨i1, i2⟩ := ih _ h2 hok
      refine ⟨?_, i2⟩
      rw [List.length_append, h1 (by rw [hc]; simp), i1, moveCount_cons c s]
    · rw [Result.andThen_not_ok _ _ hc] at hok
      exact absurd hok hc

theorem Rover.execute_loop_singleton (r : Rover D) (c : Char) :
    r.execute_loop [c] = r.dispatch c := by
  simp only [Rover.execute_loop]
  exact Result.andThen_returned _

theorem Outcome.ne_ok_of_isException (o : Outcome) (h : o.isException = true) : o ≠ .ok := by
  intro e
  rw [e] at h
  cases h

theorem Outcome.ne_undefined_of_isException (o : Outcome) (h : o.isException = true) :
    o ≠ .undefined := by
  intro e
  rw [e] at h
  cases h

/-- A run that fails at `c` after the prefix `p`: nothing after `c` is run, and
the calls are those of `p` followed by those of `c`. -/
theorem Rover.execute_loop_fail_at (r : Rover D) (p rest : List Char) (c : Char)
    (hp : (r.execute_loop p).outcome = .ok)
    (hc : (r.execute_loop (p ++ [c])).outcome.isException = true) :
    r.execute_loop (p ++ c :: rest) = r.execute_loop (p ++ [c]) ∧
    ((r.execute_loop p).rover.dispatch c).outcome.isException = true ∧
    (r.execute_loop (p ++ [c])).queries
      = (r.execute_loop p).queries ++ ((r.execute_loop p).rover.dispatch c).queries := by
  have e1 : p ++ c :: rest = (p ++ [c]) ++ rest := by simp
  have e2 : r.execute_loop (p ++ [c])
      = { outcome := ((r.execute_loop p).rover.dispatch c).outcome,
          rover := ((r.execute_loop p).rover.dispatch c).rover,
          queries := (r.execute_loop p).queries
            ++ ((r.execute_loop p).rover.dispatch c).queries } := by
    rw [Rover.execute_loop_append, Result.andThen_ok _ _ hp, Rover.execute_loop_singleton]
  refine ⟨?_, ?_, ?_⟩
  · rw [e1, Rover.execute_loop_append,
      Result.andThen_not_ok _ _ (Outcome.ne_ok_of_isException _ hc)]
  · rw [e2] at hc
    exact hc
  · rw [e2]

end Count

/-- C8: during `execute(s)` the detector is called once for each move command
(F or B, either case) that is attempted and for no other command. On a rover without a
detector no call is made. On a rover with a detector: a single command makes
as many calls as it is a move (one for F or B, none for L, R or an unknown
character); when `execute(s)` returns normally the number of calls is the
number of move commands of `s`; when it throws at the command `c` that follows
the prefix `p`, the calls are those of `execute(p ++ [c])`, as many as there
are move commands in `p ++ [c]`, and nothing after `c` adds a call. -/
theorem detector_call_count {D : Type} [ObstacleDetector D] (r : Rover D) (s : List Char) :
    (r.obstacle_detector_ = none → (r.execute (String.mk s)).queries = []) ∧
    (r.obstacle_detector_.isSome = true →
      (∀ c : Char, (r.dispatch c).outcome ≠ .undefined →
        (r.dispatch c).queries.length = moveCount [c]) ∧
      ((r.execute (String.mk s)).outcome = .ok →
        (r.execute (String.mk s)).queries.length = moveCount s) ∧
      (∀ (p rest : List Char) (c : Char), s = p ++ c :: rest →
        (r.execute (String.mk p)).outcome = .ok →
        (r.execute (String.mk (p ++ [c]))).outcome.isException = true →
        (r.execute (String.mk s)).queries = (r.execute (String.mk (p ++ [c]))).queries ∧
        (r.execute (String.mk s)).queries.length = moveCount (p ++ [c]))) := by
  unfold Rover.execute
  simp only
  refine ⟨Rover.execute_loop_no_detector r s, fun hd => ⟨?_, ?_, ?_⟩⟩
  · intro c
    exact (Rover.dispatch_queries_with_detector r c hd).1
  · intro hok
    exact (Rover.execute_loop_ok_count r s hd hok).1
  · intro p rest c hs hp hc
    subst hs
    obtain ⟨e1, e2, e3⟩ := Rover.execute_loop_fail_at r p rest c hp hc
    obtain ⟨i1, i2⟩ := Rover.execute_loop_ok_count r p hd hp
    have i3 := (Rover.dispatch_queries_with_detector (r.execute_loop p).rover c i2).1
      (Outcome.ne_undefined_of_isException _ e2)
    refine ⟨by rw [e1], ?_⟩
    rw [e1, e3, List.length_append, i1, i3, moveCount_append]

/-- Witness of C8: 10 x 10 map, start `(5, 5, North)`, stub answering `true`
at `(5, 8)`: `execute("FFFFFFF")` throws at the third F and makes exactly the
three calls `(5, 6)`, `(5, 7)`, `(5, 8)`. -/
theorem detector_call_count_witness :
    rover_with_stub.obstacle_detector_.isSome = true ∧
    (rover_with_stub.execute "FF").outcome = .ok ∧
    (rover_with_stub.execute "FFF").outcome.isException = true ∧
    (rover_with_stub.execute "FFFFFFF").queries = [(5, 6), (5, 7), (5, 8)] ∧
    (rover_with_stub.execute "FFFFFFF").queries.length = 3 :=
  ⟨rfl, by decide, by decide, by decide,
    (((detector_call_count rover_with_stub ['F', 'F', 'F', 'F', 'F', 'F', 'F']).2 rfl).2.2
      ['F', 'F'] ['F', 'F', 'F', 'F'] 'F' rfl (by decide) (by decide)).2.trans (by decide)⟩

/-! ## Moving on a map -/

/-- On the domain `-W ≤ v`, `v + W < 2 ^ 64` the `size_t` expression
`(v + W) % W` is the mathematical modulo of `v`. -/
theorem wrap_coord_exact (v : Int) (W : Nat) (hW : 0 < W) (hW64 : W < SIZE_MOD)
    (hlo : -(W : Int) ≤ v) (hhi : v + W < 2 ^ 64) :
    ((((toSizeT v + W) % SIZE_MOD) % W : Nat) : Int) = v % (W : Int) := by
  by_cases h0 : 0 ≤ v
  · rw [toSizeT_of_nonneg h0 (by omega)]
    have h1 : (v.toNat + W) % SIZE_MOD = v.toNat + W := by
      apply Nat.mod_eq_of_lt
      unfold SIZE_MOD
      omega
    rw [h1, Nat.add_mod_right]
    push_cast
    rw [Int.toNat_of_nonneg h0]
  · have hneg : v < 0 := by omega
    have hW64 : (W : Int) < 2 ^ 64 := by
      unfold SIZE_MOD at hW64
      omega
    rw [toSizeT_of_neg hneg (by omega)]
    have h1 : ((v + 2 ^ 64).toNat + W) % SIZE_MOD = (v + W).toNat := by
      have e : (v + 2 ^ 64).toNat + W = (v + W).toNat + SIZE_MOD := by
        unfold SIZE_MOD
        omega
      rw [e, Nat.add_mod_right]
      apply Nat.mod_eq_of_lt
      unfold SIZE_MOD
      omega
    rw [h1]
    push_cast
    rw [Int.toNat_of_nonneg (by omega), Int.add_emod_self]

section Grid

variable {D : Type}

/-- A move whose candidate exists and which is not vetoed commits the
candidate. -/
theorem Rover.move_not_vetoed [ObstacleDetector D] (r : Rover D) (forward : Bool)
    (cand : Position)
    (hc : r.candidate forward = some cand)
    (hveto : (r.move forward).outcome ≠ .ObstacleDetectedException "Obstacle detected!!!") :
    (r.move forward).outcome = .ok ∧ (r.move forward).rover.position_ = cand := by
  cases hd : r.obstacle_detector_ with
  | none =>
    rw [Rover.move_no_detector r forward cand hd hc]
    exact ⟨rfl, rfl⟩
  | some d =>
    rw [Rover.move_with_detector r forward d cand hd hc] at hveto ⊢
    split
    · rename_i h
      rw [if_pos h] at hveto
      exact absurd rfl hveto
    · exact ⟨rfl, rfl⟩

/-- On a map with `0 < W, H ≤ 2 ^ 31 - 1`, a candidate whose unwrapped
coordinates are `int`s is the wrapped pair, facing unchanged. -/
theorem Rover.candidate_on_small_map (r : Rover D) (m : Map) (forward : Bool)
    (hm : r.map_ = some m)
    (hW : 0 < m.max_width_ ∧ m.max_width_ ≤ 2 ^ 31 - 1)
    (hH : 0 < m.max_height_ ∧ m.max_height_ ≤ 2 ^ 31 - 1)
    (hx : isInt (r.position_.shifted (if forward then 1 else -1)).x)
    (hy : isInt (r.position_.shifted (if forward then 1 else -1)).y) :
    ∃ wx wy : Nat,
      m.wrap (r.position_.shifted (if forward then 1 else -1)).x
        (r.position_.shifted (if forward then 1 else -1)).y = some (wx, wy) ∧
      r.candidate forward
        = some { x := (wx : Int), y := (wy : Int), direction := r.position_.direction } := by
  obtain ⟨wx, wy, hw, h1, _, h2, _⟩ := wrap_in_range_aux m
    (r.position_.shifted (if forward then 1 else -1)).x
    (r.position_.shifted (if forward then 1 else -1)).y hW.1 hH.1
  refine ⟨wx, wy, hw, ?_⟩
  rw [Rover.candidate_of_isInt r forward hx hy]
  unfold Rover.wrap_coordinates
  rw [hm]
  simp only [hw]
  rw [toInt_of_lt (by omega), toInt_of_lt (by omega)]
  rfl

theorem emod_of_inside (v : Int) (W : Nat) (h0 : 0 ≤ v) (h1 : v < W) : v % (W : Int) = v :=
  Int.emod_eq_of_lt h0 h1

theorem emod_of_minus_one (W : Nat) (hW : 0 < W) : (-1 : Int) % (W : Int) = (W : Int) - 1 := by
  have h : (-1 : Int) % (W : Int) = (-1 + (W : Int)) % (W : Int) := Int.add_emod_self.symm
  rw [h, Int.emod_eq_of_lt (by omega) (by omega)]
  omega

/-- On a map with `0 < W, H ≤ 2 ^ 31 - 1`, a move that is not vetoed, from a
position whose unwrapped candidate `(sx, sy)` is a pair of `int`s with
`-W ≤ sx` and `-H ≤ sy`, commits `(sx mod W, sy mod H)`, facing unchanged. -/
theorem Rover.move_on_small_map [ObstacleDetector D] (r : Rover D) (m : Map) (forward : Bool)
    (hm : r.map_ = some m)
    (hW : 0 < m.max_width_ ∧ m.max_width_ ≤ 2 ^ 31 - 1)
    (hH : 0 < m.max_height_ ∧ m.max_height_ ≤ 2 ^ 31 - 1)
    (hx : isInt (r.position_.shifted (if forward then 1 else -1)).x)
    (hy : isInt (r.position_.shifted (if forward then 1 else -1)).y)
    (hxlo : -(m.max_width_ : Int) ≤ (r.position_.shifted (if forward then 1 else -1)).x)
    (hylo : -(m.max_height_ : Int) ≤ (r.position_.shifted (if forward then 1 else -1)).y)
    (hveto : (r.move forward).outcome ≠ .ObstacleDetectedException "Obstacle detected!!!") :
    (r.move forward).outcome = .ok ∧
    (r.move forward).rover.position_ =
      { x := (r.position_.shifted (if forward then 1 else -1)).x % (m.max_width_ : Int),
        y := (r.position_.shifted (if forward then 1 else -1)).y % (m.max_height_ : Int),
        direction := r.position_.direction } := by
  obtain ⟨wx, wy, hw, hc⟩ := Rover.candidate_on_small_map r m forward hm hW hH hx hy
  obtain ⟨_, _, ex, ey⟩ := Map.wrap_eq_some m _ _ wx wy hw
  obtain ⟨h1, h2⟩ := Rover.move_not_vetoed r forward _ hc hveto
  refine ⟨h1, ?_⟩
  have ix := hx.2
  have iy := hy.2
  unfold INT_MAX at ix iy
  rw [h2, ex, ey,
    wrap_coord_exact _ m.max_width_ hW.1 m.width_lt hxlo (by omega),
    wrap_coord_exact _ m.max_height_ hH.1 m.height_lt hylo (by omega)]

end Grid

/-- C9, on maps whose sides fit an `int`: for a rover on a map `W x H` with
`0 < W, H ≤ 2 ^ 31 - 1` whose move is not vetoed, (1) when the unwrapped
candidate `(x, y) ± facing vector` is a pair of `int`s, the move returns
normally and commits exactly `Map::wrap` of that candidate, facing unchanged;
(2) from a position inside the map, a forward step off an edge lands on the
opposite edge: `(x, H-1, North) → (x, 0, North)`, `(x, 0, South) → (x, H-1, South)`,
`(W-1, y, East) → (0, y, East)`, `(0, y, West) → (W-1, y, West)`. -/
theorem move_on_map_wraps {D : Type} [ObstacleDetector D] (r : Rover D) (m : Map)
    (forward : Bool) (hm : r.map_ = some m)
    (hW : 0 < m.max_width_ ∧ m.max_width_ ≤ 2 ^ 31 - 1)
    (hH : 0 < m.max_height_ ∧ m.max_height_ ≤ 2 ^ 31 - 1)
    (hveto : (r.move forward).outcome ≠ .ObstacleDetectedException "Obstacle detected!!!") :
    (isInt (r.position_.shifted (if forward then 1 else -1)).x →
      isInt (r.position_.shifted (if forward then 1 else -1)).y →
      ∃ wx wy : Nat,
        m.wrap (r.position_.shifted (if forward then 1 else -1)).x
          (r.position_.shifted (if forward then 1 else -1)).y = some (wx, wy) ∧
        (r.move forward).outcome = .ok ∧
        (r.move forward).rover.get_position
          = { x := (wx : Int), y := (wy : Int), direction := r.position_.direction }) ∧
    (forward = true →
      0 ≤ r.position_.x ∧ r.position_.x < m.max_width_ →
      0 ≤ r.position_.y ∧ r.position_.y < m.max_height_ →
      (r.move forward).outcome = .ok ∧
      (r.position_.direction = Direction.North → r.position_.y = (m.max_height_ : Int) - 1 →
        (r.move forward).rover.get_position
          = { x := r.position_.x, y := 0, direction := Direction.North }) ∧
      (r.position_.direction = Direction.South → r.position_.y = 0 →
        (r.move forward).rover.get_position
          = { x := r.position_.x, y := (m.max_height_ : Int) - 1,
              direction := Direction.South }) ∧
      (r.position_.direction = Direction.East → r.position_.x = (m.max_width_ : Int) - 1 →
        (r.move forward).rover.get_position
          = { x := 0, y := r.position_.y, direction := Direction.East }) ∧
      (r.position_.direction = Direction.West → r.position_.x = 0 →
        (r.move forward).rover.get_position
          = { x := (m.max_width_ : Int) - 1, y := r.position_.y,
              direction := Direction.West })) := by
  constructor
  · intro hx hy
    obtain ⟨wx, wy, hw, hc⟩ := Rover.candidate_on_small_map r m forward hm hW hH hx hy
    obtain ⟨h1, h2⟩ := Rover.move_not_vetoed r forward _ hc hveto
    exact ⟨wx, wy, hw, h1, h2⟩
  · intro hf hxin hyin
    subst hf
    have hW' := hW.2
    have hH' := hH.2
    have key : ∀ dir : Direction, r.position_.direction = dir →
        -(m.max_width_ : Int) ≤ (r.position_.shifted 1).x ∧
        -(m.max_height_ : Int) ≤ (r.position_.shifted 1).y ∧
        isInt (r.position_.shifted 1).x ∧ isInt (r.position_.shifted 1).y := by
      intro dir hdir
      unfold Position.shifted isInt INT_MIN INT_MAX
      rw [hdir]
      cases dir <;> simp only [forwardVector] <;> omega
    obtain ⟨k1, k2, k3, k4⟩ := key _ rfl
    obtain ⟨hok, hpos⟩ := Rover.move_on_small_map r m true hm hW hH k3 k4 k1 k2 hveto
    simp only [if_true] at hpos
    refine ⟨hok, ?_, ?_, ?_, ?_⟩
    · intro hdir hy
      unfold Rover.get_position
      rw [hpos]
      unfold Position.shifted
      rw [hdir]
      simp only [forwardVector, mul_zero, add_zero, mul_one, hy, sub_add_cancel,
        Int.emod_self, emod_of_inside _ _ hxin.1 hxin.2]
    · intro hdir hy
      unfold Rover.get_position
      rw [hpos]
      unfold Position.shifted
      rw [hdir]
      simp only [forwardVector, mul_zero, add_zero, mul_neg, mul_one, hy, zero_add,
        emod_of_minus_one _ hH.1, emod_of_inside _ _ hxin.1 hxin.2]
    · intro hdir hx
      unfold Rover.get_position
      rw [hpos]
      unfold Position.shifted
      rw [hdir]
      simp only [forwardVector, mul_zero, add_zero, mul_one, hx, sub_add_cancel,
        Int.emod_self, emod_of_inside _ _ hyin.1 hyin.2]
    · intro hdir hx
      unfold Rover.get_position
      rw [hpos]
      unfold Position.shifted
      rw [hdir]
      simp only [forwardVector, mul_zero, add_zero, mul_neg, mul_one, hx, zero_add,
        emod_of_minus_one _ hW.1, emod_of_inside _ _ hyin.1 hyin.2]

/-- Witness of C9: on the 10 x 10 map, forward from `(5, 9, North)` gives
`(5, 0, North)`, from `(5, 0, South)` gives `(5, 9, South)`, from
`(9, 5, East)` gives `(0, 5, East)`. -/
theorem move_on_map_wraps_witness :
    (rover_north_edge.move true).rover.get_position
      = { x := 5, y := 0, direction := Direction.North } ∧
    (rover_south_edge.move true).rover.get_position
      = { x := 5, y := 9, direction := Direction.South } ∧
    (rover_east_edge.move true).rover.get_position
      = { x := 0, y := 5, direction := Direction.East } :=
  ⟨((move_on_map_wraps rover_north_edge mars_map true rfl (by decide) (by decide)
      (by decide)).2 rfl (by decide) (by decide)).2.1 rfl rfl,
   ((move_on_map_wraps rover_south_edge mars_map true rfl (by decide) (by decide)
      (by decide)).2 rfl (by decide) (by decide)).2.2.1 rfl rfl,
   ((move_on_map_wraps rover_east_edge mars_map true rfl (by decide) (by decide)
      (by decide)).2 rfl (by decide) (by decide)).2.2.2.1 rfl rfl⟩

/-- C9 as stated fails on a map wider than an `int`: on a map `2 ^ 32` wide,
forward from `(0, 5, West)` is committed at `(-1, 5, West)`, while
`Map::wrap(-1, 5)` is `(4294967295, 5)`, the opposite edge. -/
theorem move_on_wide_map_counterexample :
    0 < map_wide.max_width_ ∧ 0 < map_wide.max_height_ ∧
    rover_wide.move_forward.outcome = .ok ∧
    map_wide.wrap (0 - 1) 5 = some (4294967295, 5) ∧
    rover_wide.move_forward.rover.get_position
      = { x := -1, y := 5, direction := Direction.West } ∧
    rover_wide.move_forward.rover.get_position
      ≠ { x := 4294967295, y := 5, direction := Direction.West } := by
  decide

/-! ## `execute` applies the commands in order -/

section InOrder

variable {D : Type} [ObstacleDetector D]

theorem Rover.methodFor_of_mem (c : Char) (hc : c ∈ commandLetters) :
    ∃ method : Rover D → Result D,
      Rover.methodFor c = some method ∧ ∀ r : Rover D, r.dispatch c = method r := by
  simp only [commandLetters, List.mem_cons, List.mem_singleton, List.not_mem_nil,
    or_false] at hc
  rcases hc with h | h | h | h | h | h | h | h <;> subst h
  · exact ⟨Rover.move_forward, rfl, fun _ => rfl⟩
  · exact ⟨Rover.move_forward, rfl, fun _ => rfl⟩
  · exact ⟨Rover.move_backward, rfl, fun _ => rfl⟩
  · exact ⟨Rover.move_backward, rfl, fun _ => rfl⟩
  · exact ⟨fun r => Rover.returned r.turn_left, rfl, fun _ => rfl⟩
  · exact ⟨fun r => Rover.returned r.turn_left, rfl, fun _ => rfl⟩
  · exact ⟨fun r => Rover.returned r.turn_right, rfl, fun _ => rfl⟩
  · exact ⟨fun r => Rover.returned r.turn_right, rfl, fun _ => rfl⟩

theorem Rover.execute_loop_eq_callInOrder (r : Rover D) (s : List Char)
    (hs : ∀ c ∈ s, c ∈ commandLetters) :
    (s.filterMap (Rover.methodFor : Char → Option (Rover D → Result D))).length = s.length ∧
    r.execute_loop s = r.callInOrder (s.filterMap Rover.methodFor) := by
  induction s generalizing r with
  | nil => exact ⟨rfl, rfl⟩
  | cons c s ih =>
    obtain ⟨method, hm, hd⟩ := Rover.methodFor_of_mem (D := D) c (hs c (List.mem_cons_self c s))
    have hs' : ∀ c ∈ s, c ∈ commandLetters := fun c' h => hs c' (List.mem_cons_of_mem c h)
    rw [List.filterMap_cons_some hm]
    refine ⟨by rw [List.length_cons, List.length_cons, (ih r hs').1], ?_⟩
    simp only [Rover.execute_loop, Rover.callInOrder]
    rw [hd r]
    congr 1
    funext r1
    exact (ih r1 hs').2

theorem Rover.move_outcome (r : Rover D) (forward : Bool) :
    (r.move forward).outcome = .ok ∨
    (r.move forward).outcome = .ObstacleDetectedException "Obstacle detected!!!" ∨
    (r.move forward).outcome = .undefined := by
  cases hc : r.candidate forward with
  | none =>
    rw [Rover.move_no_candidate r forward hc]
    exact Or.inr (Or.inr rfl)
  | some cand =>
    cases hd : r.obstacle_detector_ with
    | none =>
      rw [Rover.move_no_detector r forward cand hd hc]
      exact Or.inl rfl
    | some d =>
      rw [Rover.move_with_detector r forward d cand hd hc]
      split
      · exact Or.inr (Or.inl rfl)
      · exact Or.inl rfl

theorem Rover.dispatch_outcome_of_mem (r : Rover D) (c : Char) (hc : c ∈ commandLetters) :
    (r.dispatch c).outcome = .ok ∨
    (r.dispatch c).outcome = .ObstacleDetectedException "Obstacle detected!!!" ∨
    (r.dispatch c).outcome = .undefined := by
  rcases Rover.dispatch_cases r c with ⟨_, e⟩ | ⟨_, e⟩ | ⟨_, e⟩ | ⟨_, e⟩ | ⟨h, _⟩
  · rw [e]; exact Or.inl rfl
  · rw [e]; exact Or.inl rfl
  · rw [e]; exact Rover.move_outcome r true
  · rw [e]; exact Rover.move_outcome r false
  · exact absurd hc h

theorem Rover.execute_loop_outcome_of_mem (r : Rover D) (s : List Char)
    (hs : ∀ c ∈ s, c ∈ commandLetters) :
    (r.execute_loop s).outcome = .ok ∨
    (r.execute_loop s).outcome = .ObstacleDetectedException "Obstacle detected!!!" ∨
    (r.execute_loop s).outcome = .undefined := by
  induction s generalizing r with
  | nil => exact Or.inl rfl
  | cons c s ih =>
    have hs' : ∀ c ∈ s, c ∈ commandLetters := fun c' h => hs c' (List.mem_cons_of_mem c h)
    simp only [Rover.execute_loop]
    by_cases hok : (r.dispatch c).outcome = .ok
    · rw [Result.andThen_ok _ _ hok]
      exact ih _ hs'
    · rw [Result.andThen_not_ok _ _ hok]
      exact Rover.dispatch_outcome_of_mem r c (hs c (List.mem_cons_self c s))

end InOrder

/-- C10: for a command string `s` made only of F, B, L, R in either case,
every character stands for a method, and `execute(s)` ends as, and leaves the
rover in exactly the state of, calling those methods one at a time from left to
right (same outcome, same rover, same calls on the detector); when that
sequence of calls is not vetoed (and stays within defined behaviour)
`execute(s)` returns normally. `execute("")` returns normally and changes
nothing. -/
theorem execute_applies_in_order {D : Type} [ObstacleDetector D] (r : Rover D)
    (s : List Char) (hs : ∀ c ∈ s, c ∈ commandLetters) :
    (s.filterMap (Rover.methodFor : Char → Option (Rover D → Result D))).length = s.length ∧
    r.execute (String.mk s) = r.callInOrder (s.filterMap Rover.methodFor) ∧
    ((r.callInOrder (s.filterMap Rover.methodFor)).outcome
        ≠ .ObstacleDetectedException "Obstacle detected!!!" →
      (r.callInOrder (s.filterMap Rover.methodFor)).outcome ≠ .undefined →
      (r.execute (String.mk s)).outcome = .ok) ∧
    r.execute "" = { outcome := .ok, rover := r, queries := [] } := by
  obtain ⟨h1, h2⟩ := Rover.execute_loop_eq_callInOrder r s hs
  refine ⟨h1, h2, ?_, rfl⟩
  intro hv hu
  have h3 := Rover.execute_loop_outcome_of_mem r s hs
  rw [← h2] at hv hu
  rcases h3 with h | h | h
  · exact h
  · exact absurd h hv
  · exact absurd h hu

/-- Witness of C10: `execute("FFLBR")` from `(5, 5, East)` on the unbounded
plane returns normally at `(7, 4, East)`, as do the five calls
`move_forward, move_forward, turn_left, move_backward, turn_right`. -/
theorem execute_applies_in_order_witness :
    (∀ c ∈ ['F', 'F', 'L', 'B', 'R'], c ∈ commandLetters) ∧
    (rover_plain.execute "FFLBR").outcome = .ok ∧
    (rover_plain.execute "FFLBR").rover.get_position
      = { x := 7, y := 4, direction := Direction.East } ∧
    rover_plain.execute "FFLBR"
      = rover_plain.callInOrder
          [Rover.move_forward, Rover.move_forward, fun r => Rover.returned r.turn_left,
            Rover.move_backward, fun r => Rover.returned r.turn_right] :=
  have h := execute_applies_in_order rover_plain ['F', 'F', 'L', 'B', 'R'] (by decide)
  ⟨by decide, h.2.2.1 (by decide) (by decide), by decide, h.2.1⟩

/-! ## Case-insensitivity of `execute` -/

theorem swapCase_toNat (c : Char) :
    (swapCase c).toNat =
      if 65 ≤ c.toNat ∧ c.toNat ≤ 90 then c.toNat + 32
      else if 97 ≤ c.toNat ∧ c.toNat ≤ 122 then c.toNat - 32
      else c.toNat := by
  unfold swapCase
  split
  · rename_i h
    obtain ⟨h1, h2⟩ := h
    generalize c.toNat = n at h1 h2
    interval_cases n <;> rfl
  · split
    · rename_i h
      obtain ⟨h1, h2⟩ := h
      generalize c.toNat = n at h1 h2
      interval_cases n <;> rfl
    · rfl

theorem toupper_swapCase (c : Char) : Rover.toupper (swapCase c) = Rover.toupper c := by
  rw [char_eq_iff_toNat, toupper_toNat, toupper_toNat, swapCase_toNat]
  split_ifs <;> omega

theorem toupper_of_sameLetter (c1 c2 : Char) (h : sameLetter c1 c2) :
    Rover.toupper c2 = Rover.toupper c1 := by
  rcases h with h | h
  · rw [h]
  · rw [h, toupper_swapCase]

section CaseInsensitive

variable {D : Type}

/-- A command and its case variant are dispatched alike, up to the message of
the exception. -/
theorem Rover.dispatch_sameLetter [ObstacleDetector D] (r : Rover D) (c1 c2 : Char)
    (h : sameLetter c1 c2) :
    (r.dispatch c2).outcome.kind = (r.dispatch c1).outcome.kind ∧
    (r.dispatch c2).rover = (r.dispatch c1).rover ∧
    (r.dispatch c2).queries = (r.dispatch c1).queries := by
  have e := toupper_of_sameLetter c1 c2 h
  unfold Rover.dispatch
  rw [e]
  split_ifs <;> exact ⟨rfl, rfl, rfl⟩

theorem Result.andThen_same (a b : Result D) (f g : Rover D → Result D)
    (hab : a.outcome.kind = b.outcome.kind ∧ a.rover = b.rover ∧ a.queries = b.queries)
    (hfg : ∀ r : Rover D, (f r).outcome.kind = (g r).outcome.kind ∧ (f r).rover = (g r).rover ∧
      (f r).queries = (g r).queries) :
    (a.andThen f).outcome.kind = (b.andThen g).outcome.kind ∧
    (a.andThen f).rover = (b.andThen g).rover ∧
    (a.andThen f).queries = (b.andThen g).queries := by
  rcases a with ⟨oa, ra, qa⟩
  rcases b with ⟨ob, rb, qb⟩
  obtain ⟨h1, h2, h3⟩ := hab
  simp only at h1 h2 h3
  subst h2 h3
  obtain ⟨k1, k2, k3⟩ := hfg ra
  cases oa <;> cases ob <;> simp only [Outcome.kind] at h1 <;> cases h1 <;>
    first
    | exact ⟨rfl, rfl, rfl⟩
    | exact ⟨k1, k2, congrArg (fun q => qa ++ q) k3⟩

theorem Rover.execute_loop_sameLetter [ObstacleDetector D] (r : Rover D) (s1 s2 : List Char)
    (h : List.Forall₂ sameLetter s1 s2) :
    (r.execute_loop s2).outcome.kind = (r.execute_loop s1).outcome.kind ∧
    (r.execute_loop s2).rover = (r.execute_loop s1).rover ∧
    (r.execute_loop s2).queries = (r.execute_loop s1).queries := by
  induction h generalizing r with
  | nil => exact ⟨rfl, rfl, rfl⟩
  | cons hc _ ih =>
    simp only [Rover.execute_loop]
    exact Result.andThen_same _ _ _ _ (Rover.dispatch_sameLetter r _ _ hc) ih

end CaseInsensitive

/-- C11: when `s2` is `s1` with the case of any of its letters changed,
`execute(s2)` and `execute(s1)` end with the same kind of outcome (both return
normally, or both throw the same exception class), leave the same rover (hence
the same position) and make the same calls on the detector; the same holds for
the first `n` commands of each, for every `n`, so a failure occurs at the same
index. -/
theorem execute_case_insensitive {D : Type} [ObstacleDetector D] (r : Rover D)
    (s1 s2 : List Char) (h : List.Forall₂ sameLetter s1 s2) :
    (r.execute (String.mk s2)).outcome.kind = (r.execute (String.mk s1)).outcome.kind ∧
    (r.execute (String.mk s2)).rover.get_position
      = (r.execute (String.mk s1)).rover.get_position ∧
    (r.execute (String.mk s2)).rover = (r.execute (String.mk s1)).rover ∧
    (r.execute (String.mk s2)).queries = (r.execute (String.mk s1)).queries ∧
    (∀ n : Nat,
      (r.execute (String.mk (s2.take n))).outcome.kind
        = (r.execute (String.mk (s1.take n))).outcome.kind ∧
      (r.execute (String.mk (s2.take n))).rover
        = (r.execute (String.mk (s1.take n))).rover) := by
  unfold Rover.execute
  simp only
  obtain ⟨h1, h2, h3⟩ := Rover.execute_loop_sameLetter r s1 s2 h
  refine ⟨h1, by rw [h2], h2, h3, ?_⟩
  intro n
  obtain ⟨k1, k2, _⟩ := Rover.execute_loop_sameLetter r _ _ (List.forall₂_take n h)
  exact ⟨k1, k2⟩

/-- Witness of C11: from `(5, 5, East)`, `execute("FFLBR")` and
`execute("FfLBr")` both return normally at `(7, 4, East)`. -/
theorem execute_case_insensitive_witness :
    List.Forall₂ sameLetter ['F', 'F', 'L', 'B', 'R'] ['F', 'f', 'L', 'B', 'r'] ∧
    (rover_plain.execute "FFLBR").outcome.kind = OutcomeKind.ok ∧
    (rover_plain.execute "FfLBr").outcome.kind = OutcomeKind.ok ∧
    (rover_plain.execute "FFLBR").rover.get_position
      = { x := 7, y := 4, direction := Direction.East } ∧
    (rover_plain.execute "FfLBr").rover.get_position
      = { x := 7, y := 4, direction := Direction.East } :=
  have h := execute_case_insensitive rover_plain ['F', 'F', 'L', 'B', 'R']
    ['F', 'f', 'L', 'B', 'r'] (by decide)
  ⟨by decide, by decide, h.1.trans (by decide), by decide, h.2.1.trans (by decide)⟩

/-! ## Moves on the unbounded plane -/

/-- A move on a rover without map whose candidate coordinates are `int`s: the
candidate is the shifted position. -/
theorem Rover.candidate_no_map {D : Type} (r : Rover D) (forward : Bool)
    (hm : r.map_ = none)
    (hx : isInt (r.position_.shifted (if forward then 1 else -1)).x)
    (hy : isInt (r.position_.shifted (if forward then 1 else -1)).y) :
    r.candidate forward = some (r.position_.shifted (if forward then 1 else -1)) := by
  rw [Rover.candidate_of_isInt r forward hx hy, Rover.wrap_coordinates_no_map r _ hm]

/-- C12: the facing vector `(dx, dy)` is `(0, +1)` for North, `(0, -1)` for
South, `(+1, 0)` for East, `(-1, 0)` for West; on a rover with no map and no
detector at `(x, y, d)`, `move_forward()` returns normally at
`(x + dx, y + dy, d)` and `move_backward()` at `(x - dx, y - dy, d)`, these
coordinates being `int`s; facing is unchanged. -/
theorem move_vectors_unbounded {D : Type} [ObstacleDetector D] (r : Rover D)
    (hm : r.map_ = none) (hd : r.obstacle_detector_ = none) :
    (forwardVector Direction.North = (0, 1) ∧ forwardVector Direction.South = (0, -1) ∧
      forwardVector Direction.East = (1, 0) ∧ forwardVector Direction.West = (-1, 0)) ∧
    (isInt (r.position_.x + (forwardVector r.position_.direction).1) →
      isInt (r.position_.y + (forwardVector r.position_.direction).2) →
      r.move_forward.outcome = .ok ∧
      r.move_forward.rover.get_position =
        { x := r.position_.x + (forwardVector r.position_.direction).1,
          y := r.position_.y + (forwardVector r.position_.direction).2,
          direction := r.position_.direction }) ∧
    (isInt (r.position_.x - (forwardVector r.position_.direction).1) →
      isInt (r.position_.y - (forwardVector r.position_.direction).2) →
      r.move_backward.outcome = .ok ∧
      r.move_backward.rover.get_position =
        { x := r.position_.x - (forwardVector r.position_.direction).1,
          y := r.position_.y - (forwardVector r.position_.direction).2,
          direction := r.position_.direction }) := by
  refine ⟨⟨rfl, rfl, rfl, rfl⟩, ?_, ?_⟩
  · intro hx hy
    have e : r.position_.shifted (if true = true then 1 else -1) =
        { x := r.position_.x + (forwardVector r.position_.direction).1,
          y := r.position_.y + (forwardVector r.position_.direction).2,
          direction := r.position_.direction } := by
      simp [Position.shifted]
    have hc := Rover.candidate_no_map r true hm (by rw [e]; exact hx) (by rw [e]; exact hy)
    have hmv := Rover.move_no_detector r true _ hd hc
    rw [e] at hmv
    have e2 : r.move true = r.move_forward := rfl
    rw [← e2, hmv]
    exact ⟨rfl, rfl⟩
  · intro hx hy
    have e : r.position_.shifted (if false = true then 1 else -1) =
        { x := r.position_.x - (forwardVector r.position_.direction).1,
          y := r.position_.y - (forwardVector r.position_.direction).2,
          direction := r.position_.direction } := by
      simp [Position.shifted, sub_eq_add_neg]
    have hc := Rover.candidate_no_map r false hm (by rw [e]; exact hx) (by rw [e]; exact hy)
    have hmv := Rover.move_no_detector r false _ hd hc
    rw [e] at hmv
    have e2 : r.move false = r.move_backward := rfl
    rw [← e2, hmv]
    exact ⟨rfl, rfl⟩

/-- Witness of C12: from `(5, 5, d)` forward gives `(5, 6, N)`, `(5, 4, S)`,
`(6, 5, E)`, `(4, 5, W)` and backward gives `(5, 4, N)`, `(5, 6, S)`,
`(4, 5, E)`, `(6, 5, W)`. -/
theorem move_vectors_unbounded_witness :
    ((rover_facing Direction.North).move_forward.rover.get_position
        = { x := 5, y := 6, direction := Direction.North } ∧
      (rover_facing Direction.South).move_forward.rover.get_position
        = { x := 5, y := 4, direction := Direction.South } ∧
      (rover_facing Direction.East).move_forward.rover.get_position
        = { x := 6, y := 5, direction := Direction.East } ∧
      (rover_facing Direction.West).move_forward.rover.get_position
        = { x := 4, y := 5, direction := Direction.West }) ∧
    ((rover_facing Direction.North).move_backward.rover.get_position
        = { x := 5, y := 4, direction := Direction.North } ∧
      (rover_facing Direction.South).move_backward.rover.get_position
        = { x := 5, y := 6, direction := Direction.South } ∧
      (rover_facing Direction.East).move_backward.rover.get_position
        = { x := 4, y := 5, direction := Direction.East } ∧
      (rover_facing Direction.West).move_backward.rover.get_position
        = { x := 6, y := 5, direction := Direction.West }) :=
  ⟨⟨((move_vectors_unbounded (rover_facing Direction.North) rfl rfl).2.1
        (by decide) (by decide)).2,
     ((move_vectors_unbounded (rover_facing Direction.South) rfl rfl).2.1
        (by decide) (by decide)).2,
     ((move_vectors_unbounded (rover_facing Direction.East) rfl rfl).2.1
        (by decide) (by decide)).2,
     ((move_vectors_unbounded (rover_facing Direction.West) rfl rfl).2.1
        (by decide) (by decide)).2⟩,
   ⟨((move_vectors_unbounded (rover_facing Direction.North) rfl rfl).2.2
        (by decide) (by decide)).2,
     ((move_vectors_unbounded (rover_facing Direction.South) rfl rfl).2.2
        (by decide) (by decide)).2,
     ((move_vectors_unbounded (rover_facing Direction.East) rfl rfl).2.2
        (by decide) (by decide)).2,
     ((move_vectors_unbounded (rover_facing Direction.West) rfl rfl).2.2
        (by decide) (by decide)).2⟩⟩

/-! ## Turning -/

/-- C13: `turn_right()` leaves the rover at `(x, y, d')` with `d'` the
successor of `d` in the cycle North, East, South, West, North, and
`turn_left()` at `(x, y, d'')` with `d''` the predecessor (from North: West);
map and detector are as before (the detector is not called), and in `execute`
both commands return normally without a call on the detector. -/
theorem turn_follows_cycle {D : Type} [ObstacleDetector D] (r : Rover D) :
    (r.turn_right.get_position
        = { x := r.position_.x, y := r.position_.y, direction := r.position_.direction.next } ∧
      r.turn_right.map_ = r.map_ ∧ r.turn_right.obstacle_detector_ = r.obstacle_detector_) ∧
    (r.turn_left.get_position
        = { x := r.position_.x, y := r.position_.y, direction := r.position_.direction.prev } ∧
      r.turn_left.map_ = r.map_ ∧ r.turn_left.obstacle_detector_ = r.obstacle_detector_) ∧
    (r.dispatch 'R' = { outcome := .ok, rover := r.turn_right, queries := [] } ∧
      r.dispatch 'L' = { outcome := .ok, rover := r.turn_left, queries := [] }) ∧
    (Rover.turn Direction.North Rover.TurnDirection.Left = Direction.West ∧
      Rover.turn Direction.South Rover.TurnDirection.Left = Direction.East ∧
      Rover.turn Direction.East Rover.TurnDirection.Left = Direction.North ∧
      Rover.turn Direction.West Rover.TurnDirection.Left = Direction.South) ∧
    (Rover.turn Direction.North Rover.TurnDirection.Right = Direction.East ∧
      Rover.turn Direction.South Rover.TurnDirection.Right = Direction.West ∧
      Rover.turn Direction.East Rover.TurnDirection.Right = Direction.South ∧
      Rover.turn Direction.West Rover.TurnDirection.Right = Direction.North) := by
  have hR : ∀ d : Direction, Rover.turn d Rover.TurnDirection.Right = d.next := by
    intro d; cases d <;> decide
  have hL : ∀ d : Direction, Rover.turn d Rover.TurnDirection.Left = d.prev := by
    intro d; cases d <;> decide
  refine ⟨⟨?_, rfl, rfl⟩, ⟨?_, rfl, rfl⟩, ⟨rfl, rfl⟩, ?_, ?_⟩
  · simp only [Rover.get_position, Rover.turn_right, hR]
  · simp only [Rover.get_position, Rover.turn_left, hL]
  · decide
  · decide

/-- C16: for every direction `d`, `turn(turn(d, Right), Left) = d` (and
`turn(turn(d, Left), Right) = d`), and four turns in the same direction return
to `d`; likewise four `turn_right()` or four `turn_left()` leave a rover as it
was. -/
theorem turn_involution (d : Direction) :
    Rover.turn (Rover.turn d Rover.TurnDirection.Right) Rover.TurnDirection.Left = d ∧
    Rover.turn (Rover.turn d Rover.TurnDirection.Left) Rover.TurnDirection.Right = d ∧
    Rover.turn (Rover.turn (Rover.turn (Rover.turn d Rover.TurnDirection.Right)
      Rover.TurnDirection.Right) Rover.TurnDirection.Right) Rover.TurnDirection.Right = d ∧
    Rover.turn (Rover.turn (Rover.turn (Rover.turn d Rover.TurnDirection.Left)
      Rover.TurnDirection.Left) Rover.TurnDirection.Left) Rover.TurnDirection.Left = d ∧
    (∀ (D : Type) (r : Rover D), r.position_.direction = d →
      r.turn_right.turn_right.turn_right.turn_right = r ∧
      r.turn_left.turn_left.turn_left.turn_left = r ∧
      r.turn_right.turn_left = r) := by
  have h4 :
      Rover.turn (Rover.turn d Rover.TurnDirection.Right) Rover.TurnDirection.Left = d ∧
      Rover.turn (Rover.turn d Rover.TurnDirection.Left) Rover.TurnDirection.Right = d ∧
      Rover.turn (Rover.turn (Rover.turn (Rover.turn d Rover.TurnDirection.Right)
        Rover.TurnDirection.Right) Rover.TurnDirection.Right) Rover.TurnDirection.Right = d ∧
      Rover.turn (Rover.turn (Rover.turn (Rover.turn d Rover.TurnDirection.Left)
        Rover.TurnDirection.Left) Rover.TurnDirection.Left) Rover.TurnDirection.Left = d := by
    cases d <;> decide
  refine ⟨h4.1, h4.2.1, h4.2.2.1, h4.2.2.2, ?_⟩
  intro D r hr
  subst hr
  rcases r with ⟨⟨x, y, dir⟩, m, det⟩
  simp only [Rover.turn_right, Rover.turn_left]
  exact ⟨by rw [h4.2.2.1], by rw [h4.2.2.2], by rw [h4.1]⟩

/-! ## When a move fails -/

section Fails

variable {D : Type} [ObstacleDetector D]

theorem Rover.move_keeps_map (r : Rover D) (forward : Bool) :
    (r.move forward).rover.map_ = r.map_ := by
  cases hc : r.candidate forward with
  | none => rw [Rover.move_no_candidate r forward hc]
  | some cand =>
    cases hd : r.obstacle_detector_ with
    | none => rw [Rover.move_no_detector r forward cand hd hc]
    | some d =>
      rw [Rover.move_with_detector r forward d cand hd hc]
      split <;> rfl

theorem Rover.move_isException_iff (r : Rover D) (forward : Bool) :
    (r.move forward).outcome.isException = true ↔
      ∃ (d : D) (cand : Position), r.obstacle_detector_ = some d ∧
        r.candidate forward = some cand ∧
        (ObstacleDetector.is_obstacle_for d (toSizeT cand.x) (toSizeT cand.y)).1 = true := by
  cases hc : r.candidate forward with
  | none =>
    rw [Rover.move_no_candidate r forward hc]
    constructor
    · intro h; cases h
    · rintro ⟨_, _, _, h, _⟩; cases h
  | some cand =>
    cases hd : r.obstacle_detector_ with
    | none =>
      rw [Rover.move_no_detector r forward cand hd hc]
      constructor
      · intro h; cases h
      · rintro ⟨_, _, h, _, _⟩; cases h
    | some d =>
      rw [Rover.move_with_detector r forward d cand hd hc]
      split
      · rename_i hflag
        constructor
        · intro _; exact ⟨d, cand, rfl, rfl, hflag⟩
        · intro _; rfl
      · rename_i hflag
        constructor
        · intro h; cases h
        · rintro ⟨d', cand', h1, h2, h3⟩
          cases h1
          cases h2
          exact absurd h3 hflag

end Fails

/-- C14: a call of `move_forward()` (`forward = true`) or `move_backward()`
(`forward = false`) throws if and only if a detector is configured and answers
`true` at the candidate cell, and what it throws is then
`ObstacleDetectedException`; on a rover with no detector a move never throws,
and returns normally whenever its candidate is defined. -/
theorem move_fails_iff_vetoed {D : Type} [ObstacleDetector D] (r : Rover D) (forward : Bool) :
    (r.move true = r.move_forward ∧ r.move false = r.move_backward) ∧
    ((r.move forward).outcome.isException = true ↔
      ∃ (d : D) (cand : Position), r.obstacle_detector_ = some d ∧
        r.candidate forward = some cand ∧
        (ObstacleDetector.is_obstacle_for d (toSizeT cand.x) (toSizeT cand.y)).1 = true) ∧
    ((r.move forward).outcome.isException = true →
      (r.move forward).outcome = .ObstacleDetectedException "Obstacle detected!!!") ∧
    (r.obstacle_detector_ = none →
      (r.move forward).outcome.isException = false ∧
      (∀ cand : Position, r.candidate forward = some cand →
        (r.move forward).outcome = .ok)) := by
  refine ⟨⟨rfl, rfl⟩, Rover.move_isException_iff r forward, ?_, ?_⟩
  · intro h
    rcases Rover.move_outcome r forward with e | e | e
    · rw [e] at h; cases h
    · exact e
    · rw [e] at h; cases h
  · intro hd
    constructor
    · cases hc : r.candidate forward with
      | none => rw [Rover.move_no_candidate r forward hc]; rfl
      | some cand => rw [Rover.move_no_detector r forward cand hd hc]; rfl
    · intro cand hc
      rw [Rover.move_no_detector r forward cand hd hc]

/-- Witness of C14: the forward move of `rover_before_obstacle` throws, its
candidate `(5, 8)` being flagged; the rover without detector never throws. -/
theorem move_fails_iff_vetoed_witness :
    (rover_before_obstacle.move true).outcome.isException = true ∧
    (rover_before_obstacle.move true).outcome
      = .ObstacleDetectedException "Obstacle detected!!!" ∧
    (rover_plain.move true).outcome.isException = false ∧
    (rover_plain.move true).outcome = .ok :=
  have h := move_fails_iff_vetoed rover_before_obstacle true
  have e : (rover_before_obstacle.move true).outcome.isException = true :=
    h.2.1.2 ⟨ObstacleDetectorStub.mk, { x := 5, y := 8, direction := Direction.North },
      rfl, by decide, by decide⟩
  have k := (move_fails_iff_vetoed rover_plain true).2.2.2 rfl
  ⟨e, h.2.2.1 e, k.1, k.2 { x := 6, y := 5, direction := Direction.East } (by decide)⟩

/-- Witness of C13 on the rover at `(5, 5, East)`: right gives South, left
gives North, the coordinates stay `(5, 5)`. -/
theorem turn_follows_cycle_witness :
    rover_plain.turn_right.get_position = { x := 5, y := 5, direction := Direction.South } ∧
    rover_plain.turn_left.get_position = { x := 5, y := 5, direction := Direction.North } ∧
    (rover_plain.dispatch 'R').queries = [] :=
  have h := turn_follows_cycle rover_plain
  ⟨h.1.1, h.2.1.1, congrArg Result.queries h.2.2.1.1⟩

/-- Witness of C16 at East, and on the rover at `(5, 5, East)`. -/
theorem turn_involution_witness :
    Rover.turn (Rover.turn Direction.East Rover.TurnDirection.Right)
      Rover.TurnDirection.Left = Direction.East ∧
    rover_plain.turn_right.turn_right.turn_right.turn_right = rover_plain ∧
    rover_plain.turn_left.turn_left.turn_left.turn_left = rover_plain :=
  have h := turn_involution Direction.East
  have k := h.2.2.2.2 ObstacleDetectorStub rover_plain rfl
  ⟨h.1, k.1, k.2.1⟩

/-! ## Backward after forward on the unbounded plane -/

theorem Position.shifted_back (position : Position) :
    (position.shifted 1).shifted (-1) = position := by
  rcases position with ⟨x, y, dir⟩
  simp [Position.shifted]

/-- C15: on a rover with no map at a position `P` of `int` coordinates whose
forward candidate is a pair of `int`s, when neither call is vetoed,
`move_forward()` followed by `move_backward()` returns normally and leaves the
rover at exactly `P`. -/
theorem backward_undoes_forward_unbounded {D : Type} [ObstacleDetector D] (r : Rover D)
    (hm : r.map_ = none)
    (hP : isInt r.position_.x ∧ isInt r.position_.y)
    (hx : isInt (r.position_.x + (forwardVector r.position_.direction).1))
    (hy : isInt (r.position_.y + (forwardVector r.position_.direction).2))
    (hveto : (r.move_forward.andThen Rover.move_backward).outcome
      ≠ .ObstacleDetectedException "Obstacle detected!!!") :
    (r.move_forward.andThen Rover.move_backward).outcome = .ok ∧
    (r.move_forward.andThen Rover.move_backward).rover.get_position = r.get_position := by
  have ef : r.move_forward = r.move true := rfl
  have eb : ∀ q : Rover D, q.move_backward = q.move false := fun _ => rfl
  have es : r.position_.shifted (if true = true then 1 else -1) = r.position_.shifted 1 := by
    simp
  have hx1 : isInt (r.position_.shifted 1).x := by
    simpa [Position.shifted] using hx
  have hy1 : isInt (r.position_.shifted 1).y := by
    simpa [Position.shifted] using hy
  have hc := Rover.candidate_no_map r true hm (by rw [es]; exact hx1) (by rw [es]; exact hy1)
  rw [es] at hc
  have hv1 : (r.move true).outcome ≠ .ObstacleDetectedException "Obstacle detected!!!" := by
    intro h
    apply hveto
    rw [ef, Result.andThen_not_ok _ _ (by rw [h]; simp)]
    exact h
  obtain ⟨hok, hpos⟩ := Rover.move_not_vetoed r true _ hc hv1
  rw [ef, Result.andThen_ok _ _ hok] at hveto ⊢
  simp only at hveto ⊢
  have hm1 : (r.move true).rover.map_ = none := by rw [Rover.move_keeps_map, hm]
  have eback : (r.move true).rover.position_.shifted (if false = true then 1 else -1)
      = r.position_ := by
    rw [hpos]
    simpa using Position.shifted_back r.position_
  have hc2 := Rover.candidate_no_map (r.move true).rover false hm1
    (by rw [eback]; exact hP.1) (by rw [eback]; exact hP.2)
  rw [eback] at hc2
  rw [eb] at hveto ⊢
  obtain ⟨hok2, hpos2⟩ := Rover.move_not_vetoed (r.move true).rover false _ hc2 hveto
  exact ⟨hok2, hpos2⟩

/-- Witness of C15: from `(5, 5, East)` on the unbounded plane, forward then
backward returns to `(5, 5, East)`. -/
theorem backward_undoes_forward_unbounded_witness :
    (rover_plain.move_forward.andThen Rover.move_backward).outcome = .ok ∧
    (rover_plain.move_forward.andThen Rover.move_backward).rover.get_position
      = { x := 5, y := 5, direction := Direction.East } :=
  backward_undoes_forward_unbounded rover_plain rfl (by decide) (by decide) (by decide)
    (by decide)

/-! ## The message of `UnknownCommandException` -/

theorem Rover.execute_loop_unknown {D : Type} [ObstacleDetector D] (r : Rover D)
    (s : List Char) (message : String)
    (h : (r.execute_loop s).outcome = .UnknownCommandException message) :
    ∃ (p : List Char) (c : Char) (rest : List Char), s = p ++ c :: rest ∧
      (∀ ch ∈ p, ch ∈ commandLetters) ∧ c ∉ commandLetters ∧
      message = Rover.what ("Unknown command: ".push c) := by
  induction s generalizing r with
  | nil => cases h
  | cons c s ih =>
    simp only [Rover.execute_loop] at h
    by_cases hc : c ∈ commandLetters
    · by_cases hok : (r.dispatch c).outcome = .ok
      · rw [Result.andThen_ok _ _ hok] at h
        obtain ⟨p, c', rest, e, hp, hc', hmsg⟩ := ih _ h
        refine ⟨c :: p, c', rest, by rw [e]; rfl, ?_, hc', hmsg⟩
        intro ch hch
        rcases List.mem_cons.1 hch with h1 | h1
        · rw [h1]; exact hc
        · exact hp ch h1
      · rw [Result.andThen_not_ok _ _ hok] at h
        rcases Rover.dispatch_outcome_of_mem r c hc with e | e | e
        · exact absurd e hok
        · rw [e] at h; cases h
        · rw [e] at h; cases h
    · rw [Rover.dispatch_unknown r c hc, Result.andThen_not_ok _ _ (by simp)] at h
      simp only [Outcome.UnknownCommandException.injEq] at h
      exact ⟨[], c, s, rfl, fun _ hch => absurd hch (List.not_mem_nil _), hc, h.symm⟩

/-- C17, for characters other than NUL: whenever `execute(s)` throws
`UnknownCommandException`, `s` has a character outside F, B, L, R (either
case), and when the first such character of `s` is not the NUL character, the
message is `"Unknown command: "` followed by it. -/
theorem unknown_command_carries_character {D : Type} [ObstacleDetector D] (r : Rover D)
    (s : List Char) (message : String)
    (h : (r.execute (String.mk s)).outcome = .UnknownCommandException message) :
    ∃ (p : List Char) (c : Char) (rest : List Char), s = p ++ c :: rest ∧
      (∀ ch ∈ p, ch ∈ commandLetters) ∧ c ∉ commandLetters ∧
      (c ≠ Char.ofNat 0 → message = "Unknown command: " ++ String.singleton c) := by
  obtain ⟨p, c, rest, e, hp, hc, hmsg⟩ := Rover.execute_loop_unknown r s message h
  refine ⟨p, c, rest, e, hp, hc, ?_⟩
  intro hnul
  rw [hmsg, Rover.what_unknown_command c hnul]
  rfl

/-- Witness of C17: `execute("FFxFFF")` throws with the message
`"Unknown command: x"`, and `x` is the first character of `"FFxFFF"` that is
not a command. -/
theorem unknown_command_carries_character_witness :
    (rover_plain.execute "FFxFFF").outcome = .UnknownCommandException "Unknown command: x" ∧
    ∃ (p : List Char) (c : Char) (rest : List Char),
      ['F', 'F', 'x', 'F', 'F', 'F'] = p ++ c :: rest ∧
      (∀ ch ∈ p, ch ∈ commandLetters) ∧ c ∉ commandLetters ∧
      (c ≠ Char.ofNat 0 → "Unknown command: x" = "Unknown command: " ++ String.singleton c) :=
  ⟨by decide,
    unknown_command_carries_character rover_plain ['F', 'F', 'x', 'F', 'F', 'F']
      "Unknown command: x" (by decide)⟩

/-- C17 as stated fails for the NUL character: `execute` of the one-character
string holding NUL, and of `"FF"` followed by NUL and `"F"`, throw
`UnknownCommandException` with the message `"Unknown command: "`, which is not
`"Unknown command: "` followed by the offending character. -/
theorem unknown_command_nul_counterexample :
    Char.ofNat 0 ∉ commandLetters ∧
    (rover_plain.execute (String.mk [Char.ofNat 0])).outcome
      = .UnknownCommandException "Unknown command: " ∧
    (rover_plain.execute (String.mk ['F', 'F', Char.ofNat 0, 'F'])).outcome
      = .UnknownCommandException "Unknown command: " ∧
    "Unknown command: " ≠ "Unknown command: " ++ String.singleton (Char.ofNat 0) := by
  decide

/-! ## The builder -/

theorem RoverBuilder.withExtras_position {D : Type} (b : RoverBuilder D)
    (extras : List (BuilderExtra D)) : (b.withExtras extras).position_ = b.position_ := by
  induction extras generalizing b with
  | nil => rfl
  | cons e extras ih =>
    cases e with
    | with_map map =>
      simp only [RoverBuilder.withExtras]
      rw [ih]
      rfl
    | with_obstacle_detector detector =>
      simp only [RoverBuilder.withExtras]
      rw [ih]
      rfl

/-- C19: `RoverBuilder{}.build()` yields a rover at `(5, 5, North)`; for every
builder `b`, all `x`, `y`, `d` and every sequence `extras` of `with_map` /
`with_obstacle_detector` calls, made before or after `with_position(x, y, d)`,
`build()` yields a rover whose `get_position()` is `(x, y, d)`. -/
theorem builder_start_position {D : Type} (b : RoverBuilder D) (x y : Int) (d : Direction)
    (extras : List (BuilderExtra D)) :
    (RoverBuilder.new : RoverBuilder D).build.1.get_position
      = { x := 5, y := 5, direction := Direction.North } ∧
    ((RoverBuilder.new : RoverBuilder D).withExtras extras).build.1.get_position
      = { x := 5, y := 5, direction := Direction.North } ∧
    ((RoverBuilder.new : RoverBuilder D).with_position x y d).build.1.get_position
      = { x := x, y := y, direction := d } ∧
    ((b.with_position x y d).withExtras extras).build.1.get_position
      = { x := x, y := y, direction := d } ∧
    ((b.withExtras extras).with_position x y d).build.1.get_position
      = { x := x, y := y, direction := d } := by
  have key : ∀ c : RoverBuilder D, c.build.1.get_position = c.position_ := fun _ => rfl
  refine ⟨rfl, ?_, rfl, ?_, rfl⟩
  · rw [key, RoverBuilder.withExtras_position]
    rfl
  · rw [key, RoverBuilder.withExtras_position]
    rfl

/-! ## The domain on which `Map::wrap` is exact -/

theorem mathMod_eq_emod (v : Int) (n : Nat) : mathMod v n = v % (n : Int) := by
  unfold mathMod
  rw [Int.add_emod_self, Int.emod_emod]

/-- C20: for a map with `0 < W, H ≤ 2 ^ 31 - 1` and `int`s `x ≥ -W`,
`y ≥ -H`, `Map::wrap(x, y)` is defined and equals `(x mod W, y mod H)` with
the mathematical non-negative modulo: each result lies in `[0, W)` (resp.
`[0, H)`) and differs from the coordinate by a multiple of `W` (resp. `H`). -/
theorem wrap_exact_on_domain (m : Map) (x y : Int)
    (hW : 0 < m.max_width_ ∧ m.max_width_ ≤ 2 ^ 31 - 1)
    (hH : 0 < m.max_height_ ∧ m.max_height_ ≤ 2 ^ 31 - 1)
    (hx : isInt x) (hy : isInt y)
    (hxlo : -(m.max_width_ : Int) ≤ x) (hylo : -(m.max_height_ : Int) ≤ y) :
    ∃ wx wy : Nat, m.wrap x y = some (wx, wy) ∧
      ((wx : Int) = mathMod x m.max_width_ ∧ (wy : Int) = mathMod y m.max_height_) ∧
      ((wx : Int) = x % (m.max_width_ : Int) ∧ (wy : Int) = y % (m.max_height_ : Int)) ∧
      (wx < m.max_width_ ∧ (m.max_width_ : Int) ∣ x - (wx : Int)) ∧
      (wy < m.max_height_ ∧ (m.max_height_ : Int) ∣ y - (wy : Int)) := by
  obtain ⟨wx, wy, hw, _, h1, _, h2⟩ := wrap_in_range_aux m x y hW.1 hH.1
  obtain ⟨_, _, ex, ey⟩ := Map.wrap_eq_some m x y wx wy hw
  have ix := hx.2
  have iy := hy.2
  unfold INT_MAX at ix iy
  have cx : (wx : Int) = x % (m.max_width_ : Int) := by
    rw [ex]
    exact wrap_coord_exact x m.max_width_ hW.1 m.width_lt hxlo (by omega)
  have cy : (wy : Int) = y % (m.max_height_ : Int) := by
    rw [ey]
    exact wrap_coord_exact y m.max_height_ hH.1 m.height_lt hylo (by omega)
  refine ⟨wx, wy, hw, ⟨?_, ?_⟩, ⟨cx, cy⟩, ⟨h1, ?_⟩, ⟨h2, ?_⟩⟩
  · rw [mathMod_eq_emod, cx]
  · rw [mathMod_eq_emod, cy]
  · rw [cx]
    exact Int.dvd_sub_of_emod_eq rfl
  · rw [cy]
    exact Int.dvd_sub_of_emod_eq rfl

/-- Witness of C20 on `Map(10, 20)`: `wrap(-10, -1)` is `(0, 19)`. -/
theorem wrap_exact_on_domain_witness :
    map_10_20.wrap (-10) (-1) = some (0, 19) ∧
    ∃ wx wy : Nat, map_10_20.wrap (-10) (-1) = some (wx, wy) ∧
      ((wx : Int) = mathMod (-10) map_10_20.max_width_ ∧
        (wy : Int) = mathMod (-1) map_10_20.max_height_) ∧
      ((wx : Int) = -10 % (map_10_20.max_width_ : Int) ∧
        (wy : Int) = -1 % (map_10_20.max_height_ : Int)) ∧
      (wx < map_10_20.max_width_ ∧ (map_10_20.max_width_ : Int) ∣ -10 - (wx : Int)) ∧
      (wy < map_10_20.max_height_ ∧ (map_10_20.max_height_ : Int) ∣ -1 - (wy : Int)) :=
  ⟨by decide,
    wrap_exact_on_domain map_10_20 (-10) (-1) (by decide) (by decide) (by decide) (by decide)
      (by decide) (by decide)⟩

/-! ## Grid containment -/

section Containment

variable {D : Type} [ObstacleDetector D]

theorem Position.shifted_isInt_of_inside (position : Position) (m : Map) (sign : Int)
    (hs : sign = 1 ∨ sign = -1)
    (hW : m.max_width_ ≤ 2 ^ 31 - 1) (hH : m.max_height_ ≤ 2 ^ 31 - 1)
    (hin : position.inside m) :
    (isInt (position.shifted sign).x ∧ isInt (position.shifted sign).y) ∧
    (-1 ≤ (position.shifted sign).x ∧ -1 ≤ (position.shifted sign).y) := by
  rcases position with ⟨x, y, dir⟩
  obtain ⟨⟨hx0, hx1⟩, ⟨hy0, hy1⟩⟩ := hin
  simp only at hx0 hx1 hy0 hy1
  unfold isInt INT_MIN INT_MAX Position.shifted
  rcases hs with h | h <;> subst h <;> cases dir <;> simp only [forwardVector] <;> omega

/-- One move from inside a map with `0 < W, H ≤ 2 ^ 31 - 1`: the candidate is
defined and inside, so the rover stays inside whether the move is committed or
vetoed, and the behaviour is defined. -/
theorem Rover.move_inside (r : Rover D) (m : Map) (forward : Bool)
    (hm : r.map_ = some m)
    (hW : 0 < m.max_width_ ∧ m.max_width_ ≤ 2 ^ 31 - 1)
    (hH : 0 < m.max_height_ ∧ m.max_height_ ≤ 2 ^ 31 - 1)
    (hin : r.position_.inside m) :
    (r.move forward).outcome ≠ .undefined ∧
    (r.move forward).rover.map_ = some m ∧
    (r.move forward).rover.position_.inside m := by
  obtain ⟨⟨ix, iy⟩, _⟩ := Position.shifted_isInt_of_inside r.position_ m
    (if forward then 1 else -1) (by cases forward <;> simp) hW.2 hH.2 hin
  obtain ⟨wx, wy, hw, hc⟩ := Rover.candidate_on_small_map r m forward hm hW hH ix iy
  obtain ⟨_, _, ex, ey⟩ := Map.wrap_eq_some m _ _ wx wy hw
  have bx : wx < m.max_width_ := by rw [ex]; exact Nat.mod_lt _ hW.1
  have by' : wy < m.max_height_ := by rw [ey]; exact Nat.mod_lt _ hH.1
  have hcin : Position.inside
      { x := (wx : Int), y := (wy : Int), direction := r.position_.direction } m := by
    unfold Position.inside
    simp only
    omega
  refine ⟨?_, by rw [Rover.move_keeps_map, hm], ?_⟩
  · cases hd : r.obstacle_detector_ with
    | none => rw [Rover.move_no_detector r forward _ hd hc]; simp
    | some d =>
      rw [Rover.move_with_detector r forward d _ hd hc]
      split <;> simp
  · cases hd : r.obstacle_detector_ with
    | none => rw [Rover.move_no_detector r forward _ hd hc]; exact hcin
    | some d =>
      rw [Rover.move_with_detector r forward d _ hd hc]
      split
      · exact hin
      · exact hcin

theorem Rover.dispatch_inside (r : Rover D) (m : Map) (c : Char)
    (hm : r.map_ = some m)
    (hW : 0 < m.max_width_ ∧ m.max_width_ ≤ 2 ^ 31 - 1)
    (hH : 0 < m.max_height_ ∧ m.max_height_ ≤ 2 ^ 31 - 1)
    (hin : r.position_.inside m) :
    (r.dispatch c).outcome ≠ .undefined ∧
    (r.dispatch c).rover.map_ = some m ∧
    (r.dispatch c).rover.position_.inside m := by
  rcases Rover.dispatch_cases r c with ⟨_, e⟩ | ⟨_, e⟩ | ⟨_, e⟩ | ⟨_, e⟩ | ⟨_, e⟩
  · rw [e]; exact ⟨by simp [Rover.returned], hm, hin⟩
  · rw [e]; exact ⟨by simp [Rover.returned], hm, hin⟩
  · rw [e]; exact Rover.move_inside r m true hm hW hH hin
  · rw [e]; exact Rover.move_inside r m false hm hW hH hin
  · rw [e]; exact ⟨by simp, hm, hin⟩

theorem Rover.execute_loop_inside (r : Rover D) (m : Map) (s : List Char)
    (hm : r.map_ = some m)
    (hW : 0 < m.max_width_ ∧ m.max_width_ ≤ 2 ^ 31 - 1)
    (hH : 0 < m.max_height_ ∧ m.max_height_ ≤ 2 ^ 31 - 1)
    (hin : r.position_.inside m) :
    (r.execute_loop s).outcome ≠ .undefined ∧
    (r.execute_loop s).rover.map_ = some m ∧
    (r.execute_loop s).rover.position_.inside m := by
  induction s generalizing r with
  | nil => exact ⟨by simp [Rover.execute_loop, Rover.returned], hm, hin⟩
  | cons c s ih =>
    obtain ⟨h1, h2, h3⟩ := Rover.dispatch_inside r m c hm hW hH hin
    simp only [Rover.execute_loop]
    by_cases hok : (r.dispatch c).outcome = .ok
    · rw [Result.andThen_ok _ _ hok]
      exact ih _ h2 h3
    · rw [Result.andThen_not_ok _ _ hok]
      exact ⟨h1, h2, h3⟩

end Containment

/-- C21: for a rover on a map `W x H` with `0 < W, H ≤ 2 ^ 31 - 1`, with or
without a detector, whose position lies inside `[0, W) x [0, H)`, and for
every command string `s`: after `execute(s)`, whether it returned or threw, the
position still lies inside `[0, W) x [0, H)` (the map is the same, and the run
never leaves defined behaviour). -/
theorem grid_containment {D : Type} [ObstacleDetector D] (r : Rover D) (m : Map)
    (s : List Char) (hm : r.map_ = some m)
    (hW : 0 < m.max_width_ ∧ m.max_width_ ≤ 2 ^ 31 - 1)
    (hH : 0 < m.max_height_ ∧ m.max_height_ ≤ 2 ^ 31 - 1)
    (hin : r.get_position.inside m) :
    (r.execute (String.mk s)).rover.get_position.inside m ∧
    (r.execute (String.mk s)).rover.map_ = some m ∧
    (r.execute (String.mk s)).outcome ≠ .undefined := by
  obtain ⟨h1, h2, h3⟩ := Rover.execute_loop_inside r m s hm hW hH hin
  exact ⟨h3, h2, h1⟩

/-- Witness of C21: on the 10 x 10 map from `(5, 5, North)` with the stub,
`execute("FFFFFFF")` throws and `execute("BBBBBBLFFFFFF")` returns; both leave
the rover inside the map. -/
theorem grid_containment_witness :
    rover_with_stub.get_position.inside mars_map ∧
    (rover_with_stub.execute "FFFFFFF").outcome.isException = true ∧
    (rover_with_stub.execute "FFFFFFF").rover.get_position.inside mars_map ∧
    (rover_with_stub.execute "BBBBBBLFFFFFF").outcome = .ok ∧
    (rover_with_stub.execute "BBBBBBLFFFFFF").rover.get_position.inside mars_map :=
  ⟨by decide, by decide,
    (grid_containment rover_with_stub mars_map ['F', 'F', 'F', 'F', 'F', 'F', 'F'] rfl
      (by decide) (by decide) (by decide)).1,
    by decide,
    (grid_containment rover_with_stub mars_map
      ['B', 'B', 'B', 'B', 'B', 'B', 'L', 'F', 'F', 'F', 'F', 'F', 'F'] rfl
      (by decide) (by decide) (by decide)).1⟩

/-! ## Backward after forward on a map -/

theorem emod_shift_back (x d : Int) (W : Nat) (h0 : 0 ≤ x) (h1 : x < W) :
    ((x + d) % (W : Int) + -d) % (W : Int) = x := by
  have h := Int.emod_add_ediv (x + d) (W : Int)
  have e : (x + d) % (W : Int) + -d = x + (W : Int) * (-((x + d) / (W : Int))) := by
    have : (W : Int) * (-((x + d) / (W : Int))) = -((W : Int) * ((x + d) / (W : Int))) := by
      ring
    rw [this]
    omega
  rw [e, Int.add_mul_emod_self_left]
  exact Int.emod_eq_of_lt h0 h1

theorem Position.shifted_emod_back (position : Position) (m : Map) (sign : Int) :
    ({ x := (position.shifted sign).x % (m.max_width_ : Int),
       y := (position.shifted sign).y % (m.max_height_ : Int),
       direction := position.direction } : Position).shifted (-sign)
      = { x := (position.x + sign * (forwardVector position.direction).1) % (m.max_width_ : Int)
            + -(sign * (forwardVector position.direction).1),
          y := (position.y + sign * (forwardVector position.direction).2) % (m.max_height_ : Int)
            + -(sign * (forwardVector position.direction).2),
          direction := position.direction } := by
  simp only [Position.shifted, neg_mul]

/-- On a map with `0 < W, H ≤ 2 ^ 31 - 1`, from a position inside the map, a
move followed by the opposite move, neither vetoed, returns to the position. -/
theorem Rover.move_there_and_back {D : Type} [ObstacleDetector D] (r : Rover D) (m : Map)
    (forward : Bool) (hm : r.map_ = some m)
    (hW : 0 < m.max_width_ ∧ m.max_width_ ≤ 2 ^ 31 - 1)
    (hH : 0 < m.max_height_ ∧ m.max_height_ ≤ 2 ^ 31 - 1)
    (hin : r.position_.inside m)
    (hveto : ((r.move forward).andThen fun r1 => r1.move (!forward)).outcome
      ≠ .ObstacleDetectedException "Obstacle detected!!!") :
    ((r.move forward).andThen fun r1 => r1.move (!forward)).outcome = .ok ∧
    ((r.move forward).andThen fun r1 => r1.move (!forward)).rover.position_ = r.position_ := by
  have hsign : (if (!forward) = true then (1 : Int) else -1)
      = -(if forward = true then (1 : Int) else -1) := by
    cases forward <;> simp
  have hs1 : (if forward = true then (1 : Int) else -1) = 1
      ∨ (if forward = true then (1 : Int) else -1) = -1 := by
    cases forward <;> simp
  have hs2 : (if (!forward) = true then (1 : Int) else -1) = 1
      ∨ (if (!forward) = true then (1 : Int) else -1) = -1 := by
    cases forward <;> simp
  -- the first move
  obtain ⟨⟨ix, iy⟩, lx, ly⟩ := Position.shifted_isInt_of_inside r.position_ m _ hs1 hW.2 hH.2 hin
  have hv1 : (r.move forward).outcome ≠ .ObstacleDetectedException "Obstacle detected!!!" := by
    intro h
    apply hveto
    rw [Result.andThen_not_ok _ _ (by rw [h]; simp)]
    exact h
  obtain ⟨hok, hpos⟩ := Rover.move_on_small_map r m forward hm hW hH ix iy
    (by omega) (by omega) hv1
  rw [Result.andThen_ok _ _ hok] at hveto ⊢
  simp only at hveto ⊢
  -- the rover after the first move
  have hm1 : (r.move forward).rover.map_ = some m := by rw [Rover.move_keeps_map, hm]
  have hin1 : (r.move forward).rover.position_.inside m := by
    rw [hpos]
    unfold Position.inside
    simp only
    have pW : (0 : Int) < (m.max_width_ : Int) := by omega
    have pH : (0 : Int) < (m.max_height_ : Int) := by omega
    exact ⟨⟨Int.emod_nonneg _ (by omega), Int.emod_lt_of_pos _ pW⟩,
      ⟨Int.emod_nonneg _ (by omega), Int.emod_lt_of_pos _ pH⟩⟩
  -- the second move
  obtain ⟨⟨jx, jy⟩, kx, ky⟩ := Position.shifted_isInt_of_inside
    (r.move forward).rover.position_ m _ hs2 hW.2 hH.2 hin1
  obtain ⟨hok2, hpos2⟩ := Rover.move_on_small_map (r.move forward).rover m (!forward) hm1 hW hH
    jx jy (by omega) (by omega) hveto
  refine ⟨hok2, ?_⟩
  rw [hpos2, hsign, hpos, Position.shifted_emod_back r.position_ m _]
  simp only
  rw [emod_shift_back _ _ _ hin.1.1 hin.1.2, emod_shift_back _ _ _ hin.2.1 hin.2.2]

/-- C22: for a rover on a map `W x H` with `0 < W, H ≤ 2 ^ 31 - 1`, at a
position `P` inside `[0, W) x [0, H)`, when no call is vetoed,
`move_forward()` followed by `move_backward()` returns normally and leaves the
rover at exactly `P`, and so does `move_backward()` followed by
`move_forward()`, edge crossings included. -/
theorem backward_undoes_forward_on_map {D : Type} [ObstacleDetector D] (r : Rover D) (m : Map)
    (hm : r.map_ = some m)
    (hW : 0 < m.max_width_ ∧ m.max_width_ ≤ 2 ^ 31 - 1)
    (hH : 0 < m.max_height_ ∧ m.max_height_ ≤ 2 ^ 31 - 1)
    (hin : r.get_position.inside m) :
    ((r.move_forward.andThen Rover.move_backward).outcome
        ≠ .ObstacleDetectedException "Obstacle detected!!!" →
      (r.move_forward.andThen Rover.move_backward).outcome = .ok ∧
      (r.move_forward.andThen Rover.move_backward).rover.get_position = r.get_position) ∧
    ((r.move_backward.andThen Rover.move_forward).outcome
        ≠ .ObstacleDetectedException "Obstacle detected!!!" →
      (r.move_backward.andThen Rover.move_forward).outcome = .ok ∧
      (r.move_backward.andThen Rover.move_forward).rover.get_position = r.get_position) :=
  ⟨fun hveto => Rover.move_there_and_back r m true hm hW hH hin hveto,
   fun hveto => Rover.move_there_and_back r m false hm hW hH hin hveto⟩

/-- Witness of C22: on the 10 x 10 map, from `(5, 9, North)` forward crosses the
north edge to `(5, 0)` and backward returns to `(5, 9, North)`; from
`(5, 0, South)` backward-then-forward stays inside and returns as well. -/
theorem backward_undoes_forward_on_map_witness :
    rover_north_edge.move_forward.rover.get_position
      = { x := 5, y := 0, direction := Direction.North } ∧
    (rover_north_edge.move_forward.andThen Rover.move_backward).outcome = .ok ∧
    (rover_north_edge.move_forward.andThen Rover.move_backward).rover.get_position
      = { x := 5, y := 9, direction := Direction.North } ∧
    (rover_north_edge.move_backward.andThen Rover.move_forward).rover.get_position
      = { x := 5, y := 9, direction := Direction.North } :=
  have h := backward_undoes_forward_on_map rover_north_edge mars_map rfl (by decide)
    (by decide) (by decide)
  ⟨by decide, (h.1 (by decide)).1, (h.1 (by decide)).2, (h.2 (by decide)).2⟩

/-! ## `execute` over a concatenation -/

/-- C23: `execute(a ++ b)` is `execute(a)` followed, when it returned
normally, by `execute(b)` on the rover it left. So if `execute(a)` returns
normally, `execute(a ++ b)` has the outcome and final position of `execute(b)`
run after `execute(a)`; if `execute(a)` fails, `execute(a ++ b)` fails with the
same error, the same final position (and the same calls on the detector). The
rover left by a failed run is an ordinary rover: nothing but its position, map
and detector is carried over. -/
theorem execute_composes {D : Type} [ObstacleDetector D] (r : Rover D) (a b : List Char) :
    (r.execute (String.mk (a ++ b))
      = (r.execute (String.mk a)).andThen fun r1 => r1.execute (String.mk b)) ∧
    ((r.execute (String.mk a)).outcome = .ok →
      (r.execute (String.mk (a ++ b))).outcome
        = ((r.execute (String.mk a)).rover.execute (String.mk b)).outcome ∧
      (r.execute (String.mk (a ++ b))).rover.get_position
        = ((r.execute (String.mk a)).rover.execute (String.mk b)).rover.get_position ∧
      (r.execute (String.mk (a ++ b))).rover
        = ((r.execute (String.mk a)).rover.execute (String.mk b)).rover) ∧
    ((r.execute (String.mk a)).outcome ≠ .ok →
      (r.execute (String.mk (a ++ b))).outcome = (r.execute (String.mk a)).outcome ∧
      (r.execute (String.mk (a ++ b))).rover.get_position
        = (r.execute (String.mk a)).rover.get_position ∧
      r.execute (String.mk (a ++ b)) = r.execute (String.mk a)) := by
  have e : r.execute (String.mk (a ++ b))
      = (r.execute (String.mk a)).andThen fun r1 => r1.execute (String.mk b) :=
    Rover.execute_loop_append r a b
  refine ⟨e, ?_, ?_⟩
  · intro hok
    rw [e, Result.andThen_ok _ _ hok]
    exact ⟨rfl, rfl, rfl⟩
  · intro hfail
    rw [e, Result.andThen_not_ok _ _ hfail]
    exact ⟨rfl, rfl, rfl⟩

/-- Witness of C23: from `(5, 5, East)`, `execute("FFLBR")` is `execute("FF")`
followed by `execute("LBR")`; and `execute("FFx" ++ "FFF")` fails exactly as
`execute("FFx")` does, at `(7, 5, East)`. -/
theorem execute_composes_witness :
    (rover_plain.execute "FF").outcome = .ok ∧
    (rover_plain.execute "FFLBR").rover.get_position
      = ((rover_plain.execute "FF").rover.execute "LBR").rover.get_position ∧
    (rover_plain.execute "FFx").outcome ≠ .ok ∧
    rover_plain.execute "FFxFFF" = rover_plain.execute "FFx" ∧
    (rover_plain.execute "FFxFFF").rover.get_position
      = { x := 7, y := 5, direction := Direction.East } :=
  have h1 := execute_composes rover_plain ['F', 'F'] ['L', 'B', 'R']
  have h2 := execute_composes rover_plain ['F', 'F', 'x'] ['F', 'F', 'F']
  ⟨by decide, (h1.2.1 (by decide)).2.1, by decide, (h2.2.2 (by decide)).2.2, by decide⟩

/-! ## `build()` hands the detector over -/

section NoDetector

variable {D : Type} [ObstacleDetector D]

theorem Rover.move_never_vetoed (r : Rover D) (forward : Bool)
    (hd : r.obstacle_detector_ = none) (message : String) :
    (r.move forward).outcome ≠ .ObstacleDetectedException message := by
  cases hc : r.candidate forward with
  | none => rw [Rover.move_no_candidate r forward hc]; simp
  | some cand => rw [Rover.move_no_detector r forward cand hd hc]; simp

theorem Rover.dispatch_never_vetoed (r : Rover D) (c : Char)
    (hd : r.obstacle_detector_ = none) (message : String) :
    (r.dispatch c).outcome ≠ .ObstacleDetectedException message := by
  rcases Rover.dispatch_cases r c with ⟨_, e⟩ | ⟨_, e⟩ | ⟨_, e⟩ | ⟨_, e⟩ | ⟨_, e⟩
  · rw [e]; simp [Rover.returned]
  · rw [e]; simp [Rover.returned]
  · rw [e]; exact Rover.move_never_vetoed r true hd message
  · rw [e]; exact Rover.move_never_vetoed r false hd message
  · rw [e]; simp

theorem Rover.execute_loop_never_vetoed (r : Rover D) (s : List Char)
    (hd : r.obstacle_detector_ = none) (message : String) :
    (r.execute_loop s).outcome ≠ .ObstacleDetectedException message := by
  induction s generalizing r with
  | nil => simp [Rover.execute_loop, Rover.returned]
  | cons c s ih =>
    simp only [Rover.execute_loop]
    by_cases hok : (r.dispatch c).outcome = .ok
    · rw [Result.andThen_ok _ _ hok]
      exact ih _ (Rover.dispatch_queries_no_detector r c hd).2
    · rw [Result.andThen_not_ok _ _ hok]
      exact Rover.dispatch_never_vetoed r c hd message

end NoDetector

/-- C24: for a builder holding a detector `d` (left there by
`with_obstacle_detector`), the first `build()` yields a rover whose detector is
`d`, consulted by its moves; a second `build()` on the builder the first call
left yields a rover with the same start position and map but no detector, so
none of its moves throws. -/
theorem build_hands_detector_over {D : Type} [ObstacleDetector D] (b : RoverBuilder D) (d : D)
    (hd : b.detector_ = some d) :
    (b.build.1.obstacle_detector_ = some d ∧
      b.build.1.get_position = b.position_ ∧ b.build.1.map_ = b.map_) ∧
    (∀ (forward : Bool) (cand : Position), b.build.1.candidate forward = some cand →
      (b.build.1.move forward).queries = [(toSizeT cand.x, toSizeT cand.y)]) ∧
    (b.build.2.build.1.obstacle_detector_ = none ∧
      b.build.2.build.1.get_position = b.build.1.get_position ∧
      b.build.2.build.1.map_ = b.build.1.map_) ∧
    (∀ forward : Bool,
      (b.build.2.build.1.move forward).outcome.isException = false ∧
      (b.build.2.build.1.move forward).queries = []) ∧
    (∀ s : List Char, (b.build.2.build.1.execute (String.mk s)).queries = [] ∧
      ∀ message : String, (b.build.2.build.1.execute (String.mk s)).outcome
        ≠ .ObstacleDetectedException message) := by
  have h1 : b.build.1.obstacle_detector_ = some d := hd
  have h2 : b.build.2.build.1.obstacle_detector_ = none := rfl
  refine ⟨⟨h1, rfl, rfl⟩, ?_, ⟨h2, rfl, rfl⟩, ?_, ?_⟩
  · intro forward cand hc
    rw [Rover.move_with_detector _ forward d cand h1 hc]
    split <;> rfl
  · intro forward
    refine ⟨?_, (Rover.move_queries_no_detector _ forward h2).1⟩
    cases hc : b.build.2.build.1.candidate forward with
    | none => rw [Rover.move_no_candidate _ forward hc]; rfl
    | some cand => rw [Rover.move_no_detector _ forward cand h2 hc]; rfl
  · intro s
    refine ⟨Rover.execute_loop_no_detector _ s h2, ?_⟩
    exact Rover.execute_loop_never_vetoed _ s h2

/-- Witness of C24 on the builder of the test "Rover - obstacle detection":
the first rover has the stub and `execute("FFFFFFF")` is vetoed at `(5, 8)`;
the second rover starts at the same `(5, 5, North)` on the same map, has no
detector, and the same commands return normally at `(5, 2, North)`. -/
theorem build_hands_detector_over_witness :
    builder_with_stub.detector_ = some ObstacleDetectorStub.mk ∧
    builder_with_stub.build.1 = rover_with_stub ∧
    (builder_with_stub.build.1.execute "FFFFFFF").outcome
      = .ObstacleDetectedException "Obstacle detected!!!" ∧
    builder_with_stub.build.2.build.1.obstacle_detector_ = none ∧
    builder_with_stub.build.2.build.1.get_position
      = { x := 5, y := 5, direction := Direction.North } ∧
    builder_with_stub.build.2.build.1.map_ = some mars_map ∧
    (builder_with_stub.build.2.build.1.execute "FFFFFFF").outcome = .ok ∧
    (builder_with_stub.build.2.build.1.execute "FFFFFFF").rover.get_position
      = { x := 5, y := 2, direction := Direction.North } :=
  have h := build_hands_detector_over builder_with_stub ObstacleDetectorStub.mk rfl
  ⟨rfl, by decide, by decide, h.2.2.1.1, h.2.2.1.2.1.trans (by decide),
    h.2.2.1.2.2.trans (by decide), by decide, by decide⟩

end TDD

namespace DataAnalyzerHpp

open Ver_1

/-! ## `Ver_1::DataAnalyzer` without `load_data` -/

/-- Whatever the reader, a `sum` analyzer on which only `calculate()` is called
reports the sum of no data: the reader is called by `load_data` alone. -/
theorem calculate_without_load_data {R : Type} [DoubleOps R]
    (reader : String → Except String (List R))
    (writer : String → List (StatResult R) → Except String Unit) :
    (DataAnalyzer.new Statistics.sum reader writer).calculate.map DataAnalyzer.results
      = some [{ description := "Sum", value := 0 }] :=
  rfl

/-- C18: with the reader of the test, returning `{1, 2, 3, 4, 5}` (sum 15),
`calculate()` right after construction leaves `results()` equal to
`[("Sum", 0)]`, not `[("Sum", 15)]`; with `load_data` called first it is
`[("Sum", 15)]`. -/
theorem sum_without_load_data :
    (DataAnalyzer.new Statistics.sum testable_reader null_writer).calculate.map
        DataAnalyzer.results
      = some [{ description := "Sum", value := 0 }] ∧
    (DataAnalyzer.new Statistics.sum testable_reader null_writer).calculate.map
        DataAnalyzer.results
      ≠ some [{ description := "Sum", value := 15 }] ∧
    accumulate ([1, 2, 3, 4, 5] : List Rat) = 15 ∧
    ((DataAnalyzer.new Statistics.sum testable_reader null_writer).load_data
        "data.dat").1.calculate.map DataAnalyzer.results
      = some [{ description := "Sum", value := 15 }] := by
  have h15 : accumulate ([1, 2, 3, 4, 5] : List Rat) = 15 := by
    simp only [accumulate, List.foldl]
    norm_num
  refine ⟨by decide, by decide, h15, ?_⟩
  simp only [DataAnalyzer.load_data, DataAnalyzer.new, testable_reader,
    DataAnalyzer.calculate, DataAnalyzer.results, Option.map, List.nil_append, h15]

/-! ## The three versions of `calculate` -/

theorem min_element_cons {R : Type} [DoubleOps R] (first : R) (rest : List R) :
    ∃ v : R, min_element (first :: rest) = some v :=
  ⟨_, rfl⟩

theorem max_element_cons {R : Type} [DoubleOps R] (first : R) (rest : List R) :
    ∃ v : R, max_element (first :: rest) = some v :=
  ⟨_, rfl⟩

/-- `Ver_1::DataAnalyzer::calculate` appends the entries of `specEntries`. -/
theorem ver1_calculate_eq_spec {R : Type} [DoubleOps R] (a : Ver_1.DataAnalyzer R) :
    a.calculate.map Ver_1.DataAnalyzer.results
      = (specEntries a.stat_type_ a.data_).map fun entries => a.results_ ++ entries := by
  rcases a with ⟨k, data, held, reader, writer⟩
  cases k
  · rfl
  · simp only [Ver_1.DataAnalyzer.calculate, specEntries]
    cases min_element data <;> cases max_element data <;> rfl
  · rfl

/-- `LegacyCode::DataAnalyzer::calculate` appends the entries of `specEntries`. -/
theorem legacy_calculate_eq_spec {R : Type} [DoubleOps R] (k : Ver_1.Statistics)
    (data : List R) (held : List (StatResult R)) :
    (LegacyCode.DataAnalyzer.calculate
        { stat_type_ := legacyKind k, data_ := data, results_ := held }).map
        LegacyCode.DataAnalyzer.results
      = (specEntries k data).map fun entries => held ++ entries := by
  cases k
  · rfl
  · simp only [LegacyCode.DataAnalyzer.calculate, legacyKind, specEntries]
    cases min_element data <;> cases max_element data <;> rfl
  · rfl

/-- `Ver_2::DataAnalyzer::calculate` with the strategy for `k` appends the
entries of `specEntries`. -/
theorem ver2_calculate_eq_spec {R : Type} [DoubleOps R] (k : Ver_1.Statistics)
    (data : List R) (held : List (StatResult R))
    (reader : String → Except String (List R))
    (writer : String → List (StatResult R) → Except String Unit) :
    (Ver_2.DataAnalyzer.calculate
        { stat_type_ := strategyFor k, data_ := data, results_ := held,
          reader_ := reader, writer_ := writer }).map Ver_2.DataAnalyzer.results
      = (specEntries k data).map fun entries => held ++ entries := by
  cases k
  · rfl
  · simp only [Ver_2.DataAnalyzer.calculate, strategyFor, Ver_2.MinMax, specEntries]
    cases min_element data <;> cases max_element data <;> rfl
  · rfl

theorem specEntries_defined {R : Type} [DoubleOps R] (k : Ver_1.Statistics) (data : List R)
    (h : k = Ver_1.Statistics.sum ∨ data ≠ []) :
    ∃ entries : List (StatResult R), specEntries k data = some entries := by
  cases data with
  | nil =>
    rcases h with h | h
    · subst h; exact ⟨_, rfl⟩
    · exact absurd rfl h
  | cons first rest =>
    cases k
    · exact ⟨_, rfl⟩
    · exact ⟨_, rfl⟩
    · exact ⟨_, rfl⟩

/-- C25: for every data list, every list of results already held and each
statistic kind `k`, `Ver_2::DataAnalyzer::calculate()` with the strategy object
for `k` leaves the same `results()` as `Ver_1::DataAnalyzer::calculate()` and
`LegacyCode::DataAnalyzer::calculate()` with the enum value `k`: the results
held followed by `[("Avg", sum/n)]`, `[("Min", min), ("Max", max)]` or
`[("Sum", sum)]`; for `sum`, and for non-empty data, these entries exist and
all three calls return. -/
theorem refactoring_preserves_calculate {R : Type} [DoubleOps R] (k : Ver_1.Statistics)
    (data : List R) (held : List (StatResult R))
    (reader1 reader2 : String → Except String (List R))
    (writer1 writer2 : String → List (StatResult R) → Except String Unit) :
    ((Ver_2.DataAnalyzer.calculate
        { stat_type_ := strategyFor k, data_ := data, results_ := held,
          reader_ := reader2, writer_ := writer2 }).map Ver_2.DataAnalyzer.results
      = (Ver_1.DataAnalyzer.calculate
        { stat_type_ := k, data_ := data, results_ := held,
          reader_ := reader1, writer_ := writer1 }).map Ver_1.DataAnalyzer.results) ∧
    ((Ver_1.DataAnalyzer.calculate
        { stat_type_ := k, data_ := data, results_ := held,
          reader_ := reader1, writer_ := writer1 }).map Ver_1.DataAnalyzer.results
      = (LegacyCode.DataAnalyzer.calculate
        { stat_type_ := legacyKind k, data_ := data, results_ := held }).map
        LegacyCode.DataAnalyzer.results) ∧
    ((k = Ver_1.Statistics.sum ∨ data ≠ []) →
      ∃ entries : List (StatResult R), specEntries k data = some entries ∧
        (Ver_2.DataAnalyzer.calculate
          { stat_type_ := strategyFor k, data_ := data, results_ := held,
            reader_ := reader2, writer_ := writer2 }).map Ver_2.DataAnalyzer.results
          = some (held ++ entries) ∧
        (Ver_1.DataAnalyzer.calculate
          { stat_type_ := k, data_ := data, results_ := held,
            reader_ := reader1, writer_ := writer1 }).map Ver_1.DataAnalyzer.results
          = some (held ++ entries) ∧
        (LegacyCode.DataAnalyzer.calculate
          { stat_type_ := legacyKind k, data_ := data, results_ := held }).map
          LegacyCode.DataAnalyzer.results
          = some (held ++ entries)) := by
  have e2 := ver2_calculate_eq_spec k data held reader2 writer2
  have e1 := ver1_calculate_eq_spec
    ({ stat_type_ := k, data_ := data, results_ := held,
       reader_ := reader1, writer_ := writer1 } : Ver_1.DataAnalyzer R)
  have e0 := legacy_calculate_eq_spec k data held
  simp only at e1
  refine ⟨by rw [e2, e1], by rw [e1, e0], ?_⟩
  intro h
  obtain ⟨entries, he⟩ := specEntries_defined k data h
  refine ⟨entries, he, ?_, ?_, ?_⟩
  · rw [e2, he]; rfl
  · rw [e1, he]; rfl
  · rw [e0, he]; rfl

/-- Witness of C25 on `Data{1, 2, 3, 4, 5}`: with nothing held, `avg` leaves
`[("Avg", 3)]` in the three versions; with `[("Avg", 3)]` held, `min_max`
appends `("Min", 1), ("Max", 5)` in the three versions. -/
theorem refactoring_preserves_calculate_witness :
    ((Ver_2.DataAnalyzer.calculate
        { stat_type_ := Ver_2.Avg, data_ := ([1, 2, 3, 4, 5] : List Rat), results_ := [],
          reader_ := testable_reader, writer_ := null_writer }).map Ver_2.DataAnalyzer.results
      = some [{ description := "Avg", value := 3 }] ∧
     (Ver_1.DataAnalyzer.calculate
        { stat_type_ := Statistics.avg, data_ := ([1, 2, 3, 4, 5] : List Rat), results_ := [],
          reader_ := testable_reader, writer_ := null_writer }).map Ver_1.DataAnalyzer.results
      = some [{ description := "Avg", value := 3 }] ∧
     (LegacyCode.DataAnalyzer.calculate
        { stat_type_ := LegacyCode.Statistics.avg, data_ := ([1, 2, 3, 4, 5] : List Rat),
          results_ := [] }).map LegacyCode.DataAnalyzer.results
      = some [{ description := "Avg", value := 3 }]) ∧
    ((Ver_2.DataAnalyzer.calculate
        { stat_type_ := Ver_2.MinMax, data_ := ([1, 2, 3, 4, 5] : List Rat),
          results_ := [{ description := "Avg", value := 3 }],
          reader_ := testable_reader, writer_ := null_writer }).map Ver_2.DataAnalyzer.results
      = some [{ description := "Avg", value := 3 }, { description := "Min", value := 1 },
          { description := "Max", value := 5 }] ∧
     (LegacyCode.DataAnalyzer.calculate
        { stat_type_ := LegacyCode.Statistics.min_max, data_ := ([1, 2, 3, 4, 5] : List Rat),
          results_ := [{ description := "Avg", value := 3 }] }).map
        LegacyCode.DataAnalyzer.results
      = some [{ description := "Avg", value := 3 }, { description := "Min", value := 1 },
          { description := "Max", value := 5 }]) :=
  have h1 := refactoring_preserves_calculate Statistics.avg ([1, 2, 3, 4, 5] : List Rat) []
    testable_reader testable_reader null_writer null_writer
  have h2 := refactoring_preserves_calculate Statistics.min_max ([1, 2, 3, 4, 5] : List Rat)
    [{ description := "Avg", value := 3 }] testable_reader testable_reader null_writer
    null_writer
  have v1 : (Ver_2.DataAnalyzer.calculate
      { stat_type_ := Ver_2.Avg, data_ := ([1, 2, 3, 4, 5] : List Rat), results_ := [],
        reader_ := testable_reader, writer_ := null_writer }).map Ver_2.DataAnalyzer.results
      = some [{ description := "Avg", value := 3 }] := by
    simp only [Ver_2.DataAnalyzer.calculate, Ver_2.Avg, Ver_2.DataAnalyzer.results, accumulate,
      List.foldl, List.length, Option.map, List.nil_append]
    norm_num
  have v2 : (Ver_2.DataAnalyzer.calculate
      { stat_type_ := Ver_2.MinMax, data_ := ([1, 2, 3, 4, 5] : List Rat),
        results_ := [{ description := "Avg", value := 3 }],
        reader_ := testable_reader, writer_ := null_writer }).map Ver_2.DataAnalyzer.results
      = some [{ description := "Avg", value := 3 }, { description := "Min", value := 1 },
          { description := "Max", value := 5 }] := by
    decide
  ⟨⟨v1, h1.1.symm.trans v1, h1.2.1.symm.trans (h1.1.symm.trans v1)⟩,
   ⟨v2, h2.2.1.symm.trans (h2.1.symm.trans v2)⟩⟩

end DataAnalyzerHpp
